import Mathlib

/-!
Verification of the deep-research citation/storage core
(`research_agent/tools.py`, `memory_paths.py`, `backend_factory.py`,
`runtime_metadata.py`) as a shallow embedding in Lean 4.

Modelling conventions:
* Python strings are Lean `String`; all character-level helpers work on
  `List Char` so that every definition kernel-reduces (`decide`/`rfl`).
* Python `str.lower` is modelled on the ASCII range (the inputs relevant to
  the verified properties are ASCII plus literal CJK keyword constants,
  which `lower` leaves unchanged).
* `str.splitlines` is modelled for the line breaks `\n`, `\r`, `\r\n`.
* Fallible Python code is modelled with `Except PyError`; a `try/except`
  boundary becomes a `match` on the `Except` value.
* The storage backend (the external `deepagents` dependency) is modelled
  from the spec interface: `download`, `write`, `edit` over an association
  list from paths to file contents.
-/

namespace DeepResearch

/-- A raised Python exception: class name plus message. -/
structure PyError where
  name : String
  msg : String
deriving DecidableEq, Repr

/-- Characters treated as whitespace by Python `str.strip` (ASCII subset). -/
def isPyWhitespace (c : Char) : Bool :=
  c = ' ' || c = '\t' || c = '\n' || c = '\r' || c = Char.ofNat 11 || c = Char.ofNat 12

/-- Python `str.strip()` with no arguments (both ends). -/
def pyStrip (s : String) : String :=
  String.mk (((s.data.dropWhile isPyWhitespace).reverse.dropWhile isPyWhitespace).reverse)

/-- Python `str.rstrip()` with no arguments. -/
def pyRstrip (s : String) : String :=
  String.mk ((s.data.reverse.dropWhile isPyWhitespace).reverse)

/-- ASCII lower-casing of one character; non-ASCII characters are unchanged. -/
def asciiLower (c : Char) : Char :=
  if 65 ≤ c.toNat ∧ c.toNat ≤ 90 then Char.ofNat (c.toNat + 32) else c

/-- Python `str.lower()` (ASCII model). -/
def lowerStr (s : String) : String :=
  String.mk (s.data.map asciiLower)

/-- Is `pre` a prefix of `l` (Python `str.startswith` on char lists)? -/
def isPrefixList : List Char → List Char → Bool
  | [], _ => true
  | _ :: _, [] => false
  | a :: as, b :: bs => a = b && isPrefixList as bs

/-- Does `needle` occur as a contiguous substring of `hay` (Python `in`)? -/
def isSubList (needle : List Char) : List Char → Bool
  | [] => needle.isEmpty
  | b :: bs => isPrefixList needle (b :: bs) || isSubList needle bs

/-- Helper for `splitLinesPy`: split on `\n` / `\r` / `\r\n`. -/
def splitLinesGo : List Char → List Char → List (List Char)
  | [], cur => [cur.reverse]
  | '\r' :: '\n' :: rest, cur =>
      cur.reverse :: (if rest.isEmpty then [] else splitLinesGo rest [])
  | '\r' :: rest, cur =>
      cur.reverse :: (if rest.isEmpty then [] else splitLinesGo rest [])
  | '\n' :: rest, cur =>
      cur.reverse :: (if rest.isEmpty then [] else splitLinesGo rest [])
  | c :: rest, cur => splitLinesGo rest (c :: cur)

/-- Python `str.splitlines()` (for the `\n`, `\r`, `\r\n` breaks). -/
def splitLinesPy (s : String) : List String :=
  if s.data.isEmpty then [] else (splitLinesGo s.data []).map String.mk

/-- Split a char list on a separator character (Python `str.split(sep)`). -/
def splitOnCharGo (sep : Char) : List Char → List Char → List (List Char)
  | [], cur => [cur.reverse]
  | c :: rest, cur =>
      if c = sep then cur.reverse :: splitOnCharGo sep rest []
      else splitOnCharGo sep rest (c :: cur)

/-- Join strings with a separator (Python `sep.join`). -/
def joinWith (sep : String) : List String → String
  | [] => ""
  | [x] => x
  | x :: y :: rest => x ++ sep ++ joinWith sep (y :: rest)

/-- Keep the first occurrence of each element (Python `set` as ordered list). -/
def dedupKeepFirst : List String → List String → List String
  | [], _ => []
  | x :: xs, seen =>
      if x ∈ seen then dedupKeepFirst xs seen else x :: dedupKeepFirst xs (x :: seen)

/-- Python set difference `a - b`, as a filtered list. -/
def setDiff (a b : List String) : List String :=
  a.filter (fun x => decide (x ∉ b))

/-- Lexicographic order on char code points (Python string `<`). -/
def charListLt : List Char → List Char → Bool
  | [], [] => false
  | [], _ :: _ => true
  | _ :: _, [] => false
  | a :: as, b :: bs => if a = b then charListLt as bs else decide (a.toNat < b.toNat)

/-- Insert into a sorted list of strings. -/
def insertSorted (x : String) : List String → List String
  | [] => [x]
  | y :: ys => if charListLt y.data x.data then y :: insertSorted x ys else x :: y :: ys

/-- Python `sorted` on a list of strings (insertion sort). -/
def sortStrings : List String → List String
  | [] => []
  | x :: xs => insertSorted x (sortStrings xs)

/-- ASCII letter test. -/
def isAsciiLetter (c : Char) : Bool :=
  ('A' ≤ c && c ≤ 'Z') || ('a' ≤ c && c ≤ 'z')

/-- ASCII digit test. -/
def isAsciiDigit (c : Char) : Bool :=
  '0' ≤ c && c ≤ '9'

/-- Generic association-list lookup (first matching key wins). -/
def lookupAssoc {α : Type} : List (String × α) → String → Option α
  | [], _ => none
  | kv :: rest, k => if kv.1 = k then some kv.2 else lookupAssoc rest k

/-- Replace the value at the first occurrence of a key, else append the pair.
Mirrors assignment into a Python dict (insertion order preserved). -/
def updateAssoc {α : Type} : List (String × α) → String → α → List (String × α)
  | [], k, v => [(k, v)]
  | kv :: rest, k, v =>
      if kv.1 = k then (k, v) :: rest else kv :: updateAssoc rest k v

/-- Keys of an association list. -/
def keysOf {α : Type} (l : List (String × α)) : List String :=
  l.map Prod.fst

/-! ### Citation-marker extraction (`tools.py` lines 690-716)

The regex `\[([A-Za-z]+-\d+|\d+)\]` is embedded as a deterministic scanner:
at a `[` it tries `letters+ - digits+ ]`, then `digits+ ]`; on failure it
advances one character, exactly like `re.findall` with this pattern (no
backtracking is possible because the character classes are disjoint from
the fixed delimiters). -/

/-- Try to match `([A-Za-z]+-\d+|\d+)\]` at the head of `cs` (the text right
after an opening bracket). Returns the captured id and the rest. -/
def matchCitationBody (cs : List Char) : Option (List Char × List Char) :=
  let spanned := cs.span isAsciiLetter
  if spanned.1 ≠ [] then
    match spanned.2 with
    | '-' :: rest2 =>
        let spanned2 := rest2.span isAsciiDigit
        if spanned2.1 ≠ [] then
          match spanned2.2 with
          | ']' :: rest3 => some (spanned.1 ++ '-' :: spanned2.1, rest3)
          | _ => none
        else none
    | _ => none
  else
    let spanned2 := cs.span isAsciiDigit
    if spanned2.1 ≠ [] then
      match spanned2.2 with
      | ']' :: rest3 => some (spanned2.1, rest3)
      | _ => none
    else none

/-- Fuel-driven scan collecting every citation marker, left to right,
non-overlapping (the semantics of `re.findall`). -/
def scanCitationsGo : Nat → List Char → List String
  | 0, _ => []
  | _ + 1, [] => []
  | fuel + 1, '[' :: rest =>
      match matchCitationBody rest with
      | some idAndRest => String.mk idAndRest.1 :: scanCitationsGo fuel idAndRest.2
      | none => scanCitationsGo fuel rest
  | fuel + 1, _ :: rest => scanCitationsGo fuel rest

/-- Models `_extract_inline_citation_ids`: the set of inline citation markers of a
document, as a list deduplicated in first-occurrence order. -/
def extractInlineCitationIds (s : String) : List String :=
  dedupKeepFirst (scanCitationsGo (s.data.length + 1) s.data) []

/-- Models `_has_sources_section`: case-insensitive substring test for a sources
heading. `"### sources"` contains `"## sources"`, so the test reduces to
the two-hash form, but both are kept to mirror the source. -/
def hasSourcesSection (s : String) : Bool :=
  let lowered := (lowerStr s).data
  isSubList ("### sources").data lowered || isSubList ("## sources").data lowered

/-- Return the lines after the first line that is exactly a sources heading
(after `strip().lower()`), if any. -/
def linesAfterSourcesHeading : List String → Option (List String)
  | [] => none
  | l :: ls =>
      if lowerStr (pyStrip l) = "### sources" || lowerStr (pyStrip l) = "## sources"
      then some ls
      else linesAfterSourcesHeading ls

/-- Models `_extract_sources_section_ids`: citation markers appearing strictly after
the first sources-heading line; empty when no heading line exists. -/
def extractSourcesSectionIds (s : String) : List String :=
  match linesAfterSourcesHeading (splitLinesPy s) with
  | none => []
  | some ls =>
      let sectionText := joinWith "\n" ls
      dedupKeepFirst (scanCitationsGo (sectionText.data.length + 1) sectionText.data) []

/-! ### JSON values and `json.loads` (model)

`PyJson` models the values `json.loads` can produce. Numbers keep their
source text (`num raw`); this is exact for integers, and approximate only in
the `str()` rendering of exotic float spellings, which no verified property
depends on. -/

inductive PyJson where
  | null
  | bool (b : Bool)
  | num (raw : String)
  | str (s : String)
  | arr (items : List PyJson)
  | obj (fields : List (String × PyJson))
deriving Repr

mutual

/-- Structural equality on parsed JSON values (Python `==` on the values
`json.loads` produces, restricted to like-typed comparisons). -/
def pyJsonBeq : PyJson → PyJson → Bool
  | .null, .null => true
  | .bool a, .bool b => a = b
  | .num a, .num b => a = b
  | .str a, .str b => a = b
  | .arr a, .arr b => pyJsonListBeq a b
  | .obj a, .obj b => pyJsonFieldsBeq a b
  | _, _ => false

/-- Elementwise equality of JSON arrays. -/
def pyJsonListBeq : List PyJson → List PyJson → Bool
  | [], [] => true
  | a :: as, b :: bs => pyJsonBeq a b && pyJsonListBeq as bs
  | _, _ => false

/-- Pairwise equality of JSON object fields. -/
def pyJsonFieldsBeq : List (String × PyJson) → List (String × PyJson) → Bool
  | [], [] => true
  | a :: as, b :: bs => (a.1 = b.1 && pyJsonBeq a.2 b.2) && pyJsonFieldsBeq as bs
  | _, _ => false

end

/-- A JSON parse failure, named like the Python exception class. -/
def jsonErr (m : String) : PyError :=
  { name := "JSONDecodeError", msg := m }

/-- JSON whitespace. -/
def isJsonWs (c : Char) : Bool :=
  c = ' ' || c = '\t' || c = '\n' || c = '\r'

/-- Skip JSON whitespace. -/
def skipJsonWs (cs : List Char) : List Char :=
  cs.dropWhile isJsonWs

/-- Hex digit value. -/
def hexVal (c : Char) : Option Nat :=
  if '0' ≤ c && c ≤ '9' then some (c.toNat - 48)
  else if 'a' ≤ c && c ≤ 'f' then some (c.toNat - 87)
  else if 'A' ≤ c && c ≤ 'F' then some (c.toNat - 55)
  else none

/-- Parse the body of a JSON string literal (after the opening quote). -/
def parseJsonStrGo : Nat → List Char → List Char → Except PyError (String × List Char)
  | 0, _, _ => .error (jsonErr "Unterminated string")
  | _ + 1, [], _ => .error (jsonErr "Unterminated string starting at")
  | _ + 1, '"' :: rest, acc => .ok (String.mk acc.reverse, rest)
  | fuel + 1, '\\' :: e :: rest, acc =>
      match e with
      | '"' => parseJsonStrGo fuel rest ('"' :: acc)
      | '\\' => parseJsonStrGo fuel rest ('\\' :: acc)
      | '/' => parseJsonStrGo fuel rest ('/' :: acc)
      | 'b' => parseJsonStrGo fuel rest (Char.ofNat 8 :: acc)
      | 'f' => parseJsonStrGo fuel rest (Char.ofNat 12 :: acc)
      | 'n' => parseJsonStrGo fuel rest ('\n' :: acc)
      | 'r' => parseJsonStrGo fuel rest ('\r' :: acc)
      | 't' => parseJsonStrGo fuel rest ('\t' :: acc)
      | 'u' =>
          match rest with
          | h1 :: h2 :: h3 :: h4 :: rest2 =>
              match hexVal h1, hexVal h2, hexVal h3, hexVal h4 with
              | some a, some b, some c, some d =>
                  parseJsonStrGo fuel rest2 (Char.ofNat (((a * 16 + b) * 16 + c) * 16 + d) :: acc)
              | _, _, _, _ => .error (jsonErr "Invalid uXXXX escape")
          | _ => .error (jsonErr "Invalid uXXXX escape")
      | _ => .error (jsonErr "Invalid escape")
  | fuel + 1, c :: rest, acc => parseJsonStrGo fuel rest (c :: acc)

/-- Parse digits (one or more). -/
def parseDigits (cs : List Char) : Option (List Char × List Char) :=
  let spanned := cs.span isAsciiDigit
  if spanned.1 = [] then none else some spanned

/-- Parse a JSON number token, returning its source text. -/
def parseJsonNum (cs : List Char) : Except PyError (PyJson × List Char) :=
  let signAndRest : List Char × List Char :=
    match cs with
    | '-' :: rest => (['-'], rest)
    | _ => ([], cs)
  match parseDigits signAndRest.2 with
  | none => .error (jsonErr "Expecting value")
  | some intPart =>
      let intOk : Bool :=
        match intPart.1 with
        | '0' :: _ :: _ => false
        | _ => true
      if intOk then
        let fracAndRest : List Char × List Char :=
          match intPart.2 with
          | '.' :: rest2 =>
              match parseDigits rest2 with
              | some fracPart => ('.' :: fracPart.1, fracPart.2)
              | none => ([], intPart.2)
          | _ => ([], intPart.2)
        let isBadFrac : Bool :=
          match intPart.2 with
          | '.' :: rest2 => (parseDigits rest2).isNone
          | _ => false
        if isBadFrac then .error (jsonErr "Expecting digits after decimal point")
        else
          let expAndRest : Except PyError (List Char × List Char) :=
            match fracAndRest.2 with
            | c :: rest3 =>
                if c = 'e' || c = 'E' then
                  let signedRest : List Char × List Char :=
                    match rest3 with
                    | s :: rest4 => if s = '+' || s = '-' then ([c, s], rest4) else ([c], rest3)
                    | [] => ([c], rest3)
                  match parseDigits signedRest.2 with
                  | some expPart => .ok (signedRest.1 ++ expPart.1, expPart.2)
                  | none => .error (jsonErr "Expecting digits in exponent")
                else .ok ([], fracAndRest.2)
            | [] => .ok ([], fracAndRest.2)
          match expAndRest with
          | .error e => .error e
          | .ok expPart =>
              .ok (.num (String.mk (signAndRest.1 ++ intPart.1 ++ fracAndRest.1 ++ expPart.1)),
                   expPart.2)
      else .error (jsonErr "Leading zeros are not allowed")

/-- Insert a key into JSON-object fields with dict semantics: replace the
value in place at an existing key, else append. -/
def insertObjField : List (String × PyJson) → String → PyJson → List (String × PyJson)
  | [], k, v => [(k, v)]
  | kv :: rest, k, v =>
      if kv.1 = k then (k, v) :: rest else kv :: insertObjField rest k v

mutual

/-- Parse one JSON value. -/
def parseJsonVal : Nat → List Char → Except PyError (PyJson × List Char)
  | 0, _ => .error (jsonErr "Depth exceeded")
  | fuel + 1, cs =>
      match skipJsonWs cs with
      | [] => .error (jsonErr "Expecting value")
      | 'n' :: rest =>
          match rest with
          | 'u' :: 'l' :: 'l' :: rest2 => .ok (.null, rest2)
          | _ => .error (jsonErr "Expecting value")
      | 't' :: rest =>
          match rest with
          | 'r' :: 'u' :: 'e' :: rest2 => .ok (.bool true, rest2)
          | _ => .error (jsonErr "Expecting value")
      | 'f' :: rest =>
          match rest with
          | 'a' :: 'l' :: 's' :: 'e' :: rest2 => .ok (.bool false, rest2)
          | _ => .error (jsonErr "Expecting value")
      | '"' :: rest =>
          match parseJsonStrGo (rest.length + 1) rest [] with
          | .error e => .error e
          | .ok sv => .ok (.str sv.1, sv.2)
      | '[' :: rest => parseJsonArr fuel rest
      | c :: rest =>
          if c = Char.ofNat 123 then parseJsonObj fuel rest
          else if c = '-' || isAsciiDigit c then parseJsonNum (c :: rest)
          else .error (jsonErr "Expecting value")

/-- Parse a JSON array body (after `[`). -/
def parseJsonArr (fuel : Nat) (cs : List Char) : Except PyError (PyJson × List Char) :=
  match fuel with
  | 0 => .error (jsonErr "Depth exceeded")
  | fuel + 1 =>
      match skipJsonWs cs with
      | ']' :: rest => .ok (.arr [], rest)
      | other => parseJsonArrItems fuel other []

/-- Parse array items separated by commas, closed by `]`. -/
def parseJsonArrItems (fuel : Nat) (cs : List Char) (acc : List PyJson) :
    Except PyError (PyJson × List Char) :=
  match fuel with
  | 0 => .error (jsonErr "Depth exceeded")
  | fuel + 1 =>
      match parseJsonVal fuel cs with
      | .error e => .error e
      | .ok item =>
          match skipJsonWs item.2 with
          | ',' :: rest => parseJsonArrItems fuel rest (item.1 :: acc)
          | ']' :: rest => .ok (.arr (item.1 :: acc).reverse, rest)
          | _ => .error (jsonErr "Expecting comma delimiter")

/-- Parse a JSON object body (after the opening brace). -/
def parseJsonObj (fuel : Nat) (cs : List Char) : Except PyError (PyJson × List Char) :=
  match fuel with
  | 0 => .error (jsonErr "Depth exceeded")
  | fuel + 1 =>
      match skipJsonWs cs with
      | c :: rest =>
          if c = Char.ofNat 125 then .ok (.obj [], rest)
          else parseJsonObjItems fuel (c :: rest) []
      | [] => .error (jsonErr "Expecting property name")

/-- Parse object members separated by commas, closed by the closing brace. -/
def parseJsonObjItems (fuel : Nat) (cs : List Char) (acc : List (String × PyJson)) :
    Except PyError (PyJson × List Char) :=
  match fuel with
  | 0 => .error (jsonErr "Depth exceeded")
  | fuel + 1 =>
      match skipJsonWs cs with
      | '"' :: rest =>
          match parseJsonStrGo (rest.length + 1) rest [] with
          | .error e => .error e
          | .ok keyAndRest =>
              match skipJsonWs keyAndRest.2 with
              | ':' :: rest2 =>
                  match parseJsonVal fuel rest2 with
                  | .error e => .error e
                  | .ok valAndRest =>
                      let acc2 := insertObjField acc keyAndRest.1 valAndRest.1
                      match skipJsonWs valAndRest.2 with
                      | ',' :: rest3 => parseJsonObjItems fuel rest3 acc2
                      | c :: rest3 =>
                          if c = Char.ofNat 125 then .ok (.obj acc2, rest3)
                          else .error (jsonErr "Expecting comma delimiter")
                      | [] => .error (jsonErr "Expecting comma delimiter")
              | _ => .error (jsonErr "Expecting colon delimiter")
      | _ => .error (jsonErr "Expecting property name")

end

/-- Models `json.loads` (model): parse one value, require only whitespace after. -/
def jsonLoads (s : String) : Except PyError PyJson :=
  match parseJsonVal (s.data.length + 1) s.data with
  | .error e => .error e
  | .ok valAndRest =>
      if skipJsonWs valAndRest.2 = [] then .ok valAndRest.1
      else .error (jsonErr "Extra data")

/-- Python `str()` of a parsed JSON value. Exact for the scalar cases that
occur in rendered ledgers; container reprs are abbreviated (no verified
property depends on them). -/
def pyStr : PyJson → String
  | .null => "None"
  | .bool true => "True"
  | .bool false => "False"
  | .num raw => raw
  | .str s => s
  | .arr _ => "[...]"
  | .obj _ => "\x7b...\x7d"

/-- Python truthiness of a parsed JSON value. -/
def pyTruthy : PyJson → Bool
  | .null => false
  | .bool b => b
  | .num raw =>
      (raw.data.takeWhile (fun c => c ≠ 'e' && c ≠ 'E')).any
        (fun c => '1' ≤ c && c ≤ '9')
  | .str s => !s.isEmpty
  | .arr l => !l.isEmpty
  | .obj f => !f.isEmpty

/-- Python `value.get(key, default)`: requires a dict, else AttributeError. -/
def pyDictGet (v : PyJson) (key : String) (dflt : PyJson) : Except PyError PyJson :=
  match v with
  | .obj fields => .ok ((lookupAssoc fields key).getD dflt)
  | _ => .error { name := "AttributeError", msg := "object has no attribute \x27get\x27" }

/-- Python iteration over a value: lists yield items, strings yield one-char
strings, dicts yield keys; everything else raises TypeError. -/
def pyIter (v : PyJson) : Except PyError (List PyJson) :=
  match v with
  | .arr l => .ok l
  | .str s => .ok (s.data.map (fun c => .str (String.mk [c])))
  | .obj fields => .ok (fields.map (fun kv => .str kv.1))
  | _ => .error { name := "TypeError", msg := "object is not iterable" }

/-! ### `render_sources_from_ledger` (`tools.py` lines 498-541) -/

/-- The list comprehension
`[source for source in all_sources if source.get("citation_id") in target_ids]`. -/
def filterByTargets (targets : List PyJson) : List PyJson → Except PyError (List PyJson)
  | [] => .ok []
  | src :: rest =>
      match pyDictGet src "citation_id" PyJson.null with
      | .error e => .error e
      | .ok cid =>
          match filterByTargets targets rest with
          | .error e => .error e
          | .ok kept =>
              if targets.any (fun t => pyJsonBeq t cid)
              then .ok (src :: kept) else .ok kept

/-- The list of sources to render: `ledger.get("sources", [])`, filtered by
the section index when a section name is given (`tools.py` 513-520). The
iteration needed by the filter / render loop is made explicit here. -/
def sourcesAfterFilter (ledger : PyJson) (sec : String) : Except PyError (List PyJson) :=
  match pyDictGet ledger "sources" (.arr []) with
  | .error e => .error e
  | .ok allSources =>
      if sec ≠ "" then
        match pyDictGet ledger "section_map" (.obj []) with
        | .error e => .error e
        | .ok sectionMapJson =>
            match pyDictGet sectionMapJson sec (.arr []) with
            | .error e => .error e
            | .ok targetsJson =>
                match pyIter targetsJson with
                | .error e => .error e
                | .ok targets =>
                    match pyIter allSources with
                    | .error e => .error e
                    | .ok sources => filterByTargets targets sources
      else pyIter allSources

/-- One rendered source line
`[id] (channel) title: url | raw_citation=...` (`tools.py` 523-530). -/
def formatSourceLine (src : PyJson) : Except PyError String :=
  match pyDictGet src "citation_id" (.str "UNK") with
  | .error e => .error e
  | .ok cid =>
  match pyDictGet src "title" (.str "Untitled Source") with
  | .error e => .error e
  | .ok title =>
  match pyDictGet src "url" (.str "") with
  | .error e => .error e
  | .ok url =>
  match pyDictGet src "channel" (.str "unknown") with
  | .error e => .error e
  | .ok channel =>
  match pyDictGet src "raw_citation" (.str "") with
  | .error e => .error e
  | .ok rawCitation =>
      let suffix := if pyTruthy rawCitation
        then " | raw_citation=" ++ pyStr rawCitation else ""
      .ok ("[" ++ pyStr cid ++ "] (" ++ pyStr channel ++ ") "
           ++ pyStr title ++ ": " ++ pyStr url ++ suffix)

/-- Render every source line in order. -/
def formatSourceLines : List PyJson → Except PyError (List String)
  | [] => .ok []
  | src :: rest =>
      match formatSourceLine src with
      | .error e => .error e
      | .ok line =>
          match formatSourceLines rest with
          | .error e => .error e
          | .ok lines => .ok (line :: lines)

/-- The body of `render_sources_from_ledger` after a successful parse. -/
def renderFromJson (ledger : PyJson) (sec : String) : Except PyError String :=
  match sourcesAfterFilter ledger sec with
  | .error e => .error e
  | .ok sources =>
      match formatSourceLines sources with
      | .error e => .error e
      | .ok lineList =>
          let lines := "### Sources" :: lineList
          let lines := if lines.length = 1 then lines ++ ["(No sources)"] else lines
          .ok (joinWith "\n" lines)

/-- Models `render_sources_from_ledger`: total; every raised exception is caught and
turned into the degraded warning block (`tools.py` 536-541). The Python
expression ledger_json-or-default is the empty-string fallback to the empty object text. -/
def renderSourcesFromLedger (ledgerJson : String) (sec : String) : String :=
  match (match jsonLoads (if ledgerJson = "" then "\x7b\x7d" else ledgerJson) with
         | .error e => .error e
         | .ok v => renderFromJson v sec : Except PyError String) with
  | .ok md => md
  | .error e =>
      "### Sources\n[WARN] render_sources_from_ledger degraded: "
        ++ e.name ++ ": " ++ e.msg ++ "\n(No sources)"

/-! ### `verify_and_repair_final_report` core (`tools.py` lines 719-807)

`gateCore` is the storage-abstracted body of the gate: it receives the text
stored at the public report path, the text at the private report path, and
the text at the ledger path, and returns the JSON payload fields together
with the write (if any) that the gate performs. Reading those three files
and applying the write through the backend is modelled separately in the
tool-wiring layer below. -/

/-- Result payload of the gate. `written` is the dual-write content when a
repair occurred (`none` means no write was performed); `unmatched` is the
`unmatched_inline_citations` field, absent on the empty-report branch;
`finalText` is the (possibly repaired) report text the final check ran on. -/
structure GateResult where
  status : String
  reason : Option String
  repaired : Option Bool
  notes : List String
  unmatched : Option (List String)
  written : Option String
  finalText : String
deriving DecidableEq, Repr

/-- Python `repr` of a sorted list of strings, as interpolated into the
repair note f-string. -/
def pyReprStrList (l : List String) : String :=
  "[" ++ joinWith ", " (l.map (fun s => "\x27" ++ s ++ "\x27")) ++ "]"

/-- Final recomputation of the gate (`tools.py` 788-805): re-extract the
marker sets from the (possibly repaired) text and decide pass/fail. -/
def gateFinalize (reportText : String) (repaired : Bool) (notes : List String) : GateResult :=
  { status :=
      if hasSourcesSection reportText = true
          ∧ sortStrings (setDiff (extractInlineCitationIds reportText)
              (extractSourcesSectionIds reportText)) = []
      then "pass" else "fail"
    reason := none
    repaired := some repaired
    notes := notes
    unmatched := some (sortStrings (setDiff (extractInlineCitationIds reportText)
        (extractSourcesSectionIds reportText)))
    written := if repaired then some reportText else none
    finalText := reportText }

/-- The report text the gate works on: the public copy, falling back to the
private copy when the public one is blank (`tools.py` 740-742). -/
def gateReport0 (pubText privText : String) : String :=
  if pyStrip pubText ≠ "" then pubText else privText

/-- The ledger-rendered sources block used for repair (`tools.py` 761-765). -/
def gateFullSources (ledgerText : String) : String :=
  if pyStrip ledgerText ≠ "" then renderSourcesFromLedger ledgerText ""
  else "### Sources\n(No sources)"

/-- Repair decision and final check over a non-blank report (`tools.py`
754-805). -/
def gateMain (report0 ledgerText : String) : GateResult :=
  if hasSourcesSection report0 = false then
    gateFinalize (pyRstrip report0 ++ "\n\n---\n\n" ++ gateFullSources ledgerText ++ "\n") true
      ["appended missing Sources section from ledger"]
  else if setDiff (extractInlineCitationIds report0) (extractSourcesSectionIds report0) ≠ [] then
    gateFinalize (pyRstrip report0 ++ "\n\n---\n\n" ++ gateFullSources ledgerText ++ "\n") true
      ["sources section missing citation ids: "
        ++ pyReprStrList (sortStrings (setDiff (extractInlineCitationIds report0)
              (extractSourcesSectionIds report0)))
        ++ "; appended full ledger sources"]
  else gateFinalize report0 false []

/-- The gate body over the three stored texts (`tools.py` 740-805). -/
def gateCore (pubText privText ledgerText : String) : GateResult :=
  if pyStrip (gateReport0 pubText privText) = "" then
    { status := "fail"
      reason := some "final report is empty or missing"
      repaired := none
      notes := []
      unmatched := none
      written := none
      finalText := gateReport0 pubText privText }
  else gateMain (gateReport0 pubText privText) ledgerText

/-! ### Citation ledger (`tools.py` lines 35-155 and 406-495)

Ledgers are modelled post-parse, in the shape the tool itself produces and
re-consumes: `{sources, by_fingerprint, section_map}` with dicts as ordered
association lists. The SHA-1 fingerprint is modelled by its (injective)
pre-image string `channel|title.strip().lower()|canonical_url|raw.strip()`:
every property verified here concerns fingerprint equality, which under the
code equals hash-input equality up to SHA-1 collisions. -/

inductive SourceChannel where
  | WEB
  | ALB_MCP
deriving DecidableEq, Repr

/-- The `.value` of the channel enum. -/
def channelValue : SourceChannel → String
  | .WEB => "web"
  | .ALB_MCP => "alb_mcp"

/-- Models `_normalize_source_channel`: alias table with default `WEB`. The final
`SourceChannel(normalized)` fallback can only re-produce `"web"`/`"alb_mcp"`,
both already covered by the alias sets, so unknown values map to `WEB`. -/
def normalizeSourceChannel (channelValueOpt : Option String) : SourceChannel :=
  match channelValueOpt with
  | none => .WEB
  | some s =>
      let normalized := lowerStr (pyStrip s)
      if normalized ∈ ["web", "web_search", "tavily", "tavily_search", "search", "external_web"]
      then .WEB
      else if normalized ∈ ["alb_mcp", "mcp", "internal_kb", "internal", "lightrag"]
      then .ALB_MCP
      else .WEB

/-- Models `_canonicalize_url`: strip whitespace and drop the `#fragment` part
(urlparse / `_replace(fragment="")` / urlunparse, modelled at the string
level for fragment-bearing URLs). -/
def canonicalizeUrl (url : String) : String :=
  if url = "" then ""
  else String.mk ((pyStrip url).data.takeWhile (fun c => c ≠ '#'))

/-- Models `_stable_source_fingerprint`, modelled by its injective hash input. -/
def fingerprintBase (channel : SourceChannel) (title url rawCitation : String) : String :=
  channelValue channel ++ "|" ++ lowerStr (pyStrip title) ++ "|"
    ++ canonicalizeUrl url ++ "|" ++ pyStrip rawCitation

/-- Models `_new_citation_id`. -/
def newCitationId (channel : SourceChannel) (index : Nat) : String :=
  (if channel = SourceChannel.WEB then "WEB" else "MCP") ++ "-" ++ toString index

/-- One `sources` entry of the ledger (fields in the construction order of
`tools.py` 471-478). -/
structure SourceEntry where
  citation_id : String
  channel : String
  title : String
  url : String
  raw_citation : String
  snippets : List String
deriving DecidableEq, Repr

/-- The parsed ledger `{sources, by_fingerprint, section_map}`. -/
structure Ledger where
  sources : List SourceEntry
  by_fingerprint : List (String × String)
  section_map : List (String × List String)
deriving DecidableEq, Repr

/-- The fresh ledger used when no prior ledger text is supplied. -/
def emptyLedger : Ledger :=
  { sources := [], by_fingerprint := [], section_map := [] }

/-- One evidence record (channel may be absent; the other fields are the
`str(...)`-coerced values with their defaults already applied). -/
structure EvidenceItem where
  channel : Option String
  title : String
  url : String
  sectionName : String
  raw_citation : String
  snippet : String
deriving DecidableEq, Repr

/-- Last `-`-separated component of a citation id (`split("-")[-1]`). -/
def lastDashComponent (s : String) : String :=
  ((splitOnCharGo '-' s.data []).map String.mk).getLastD ""

/-- Python `str.isdigit` (ASCII model). -/
def isDigitsStr (s : String) : Bool :=
  !s.data.isEmpty && s.data.all isAsciiDigit

/-- Decimal value of a digit string. -/
def natOfDigits (s : String) : Nat :=
  s.data.foldl (fun n c => n * 10 + (c.toNat - 48)) 0

/-- Models `_extract_existing_max_index` (`tools.py` 145-154). -/
def extractExistingMaxIndex (ledger : Ledger) (channel : SourceChannel) : Nat :=
  let pre := if channel = SourceChannel.WEB then "WEB-" else "MCP-"
  ledger.sources.foldl
    (fun maxIndex item =>
      if isPrefixList pre.data item.citation_id.data then
        let suffix := lastDashComponent item.citation_id
        if isDigitsStr suffix then Nat.max maxIndex (natOfDigits suffix) else maxIndex
      else maxIndex)
    0

/-- Models `section_refs` update (`tools.py` 489-491): `setdefault` the section list
and append the citation id if it is not already present. -/
def addSectionRef (ledger : Ledger) (sec citationId : String) : Ledger :=
  if citationId ∈ (lookupAssoc ledger.section_map sec).getD [] then ledger
  else
    { ledger with
        section_map := updateAssoc ledger.section_map sec
          (((lookupAssoc ledger.section_map sec).getD []) ++ [citationId]) }

/-- The entry a fresh (unseen-fingerprint) evidence item appends
(`tools.py` 471-478; field values as the source constructs them). -/
def mkFreshEntry (e : EvidenceItem) (citationId : String) : SourceEntry :=
  { citation_id := citationId
    channel := channelValue (normalizeSourceChannel e.channel)
    title := e.title
    url := canonicalizeUrl e.url
    raw_citation := e.raw_citation
    snippets := if e.snippet ≠ "" then [e.snippet] else [] }

/-- Fingerprint of an evidence item (the fingerprint the loop computes). -/
def fpOf (e : EvidenceItem) : String :=
  fingerprintBase (normalizeSourceChannel e.channel) e.title e.url e.raw_citation

/-- Snippet growth on one existing entry when the incoming item reuses its
citation id (`tools.py` 483-487): append the snippet unless empty or
already present. -/
def updateSnippets (snippet citationId : String) (s : SourceEntry) : SourceEntry :=
  if s.citation_id = citationId ∧ snippet ≠ "" then
    { s with snippets :=
        if snippet ∈ s.snippets then s.snippets else s.snippets ++ [snippet] }
  else s

/-- The fresh-fingerprint branch of the merge loop (`tools.py` 463-480):
allocate the next id for the item channel, append the entry, register the
fingerprint, and update the section map. -/
def mergeFreshItem (ledger : Ledger) (webIndex mcpIndex : Nat) (item : EvidenceItem) :
    Ledger × Nat × Nat :=
  if normalizeSourceChannel item.channel = SourceChannel.WEB then
    (addSectionRef
      { ledger with
          sources := ledger.sources
            ++ [mkFreshEntry item (newCitationId SourceChannel.WEB (webIndex + 1))]
          by_fingerprint := ledger.by_fingerprint
            ++ [(fpOf item, newCitationId SourceChannel.WEB (webIndex + 1))] }
      item.sectionName (newCitationId SourceChannel.WEB (webIndex + 1)),
     webIndex + 1, mcpIndex)
  else
    (addSectionRef
      { ledger with
          sources := ledger.sources
            ++ [mkFreshEntry item (newCitationId SourceChannel.ALB_MCP (mcpIndex + 1))]
          by_fingerprint := ledger.by_fingerprint
            ++ [(fpOf item, newCitationId SourceChannel.ALB_MCP (mcpIndex + 1))] }
      item.sectionName (newCitationId SourceChannel.ALB_MCP (mcpIndex + 1)),
     webIndex, mcpIndex + 1)

/-- The seen-fingerprint branch of the merge loop (`tools.py` 481-491):
reuse the citation id, grow snippets on every matching entry, update the
section map; the counters do not move. -/
def mergeExistingItem (ledger : Ledger) (webIndex mcpIndex : Nat) (item : EvidenceItem)
    (citationId : String) : Ledger × Nat × Nat :=
  (addSectionRef
    { ledger with sources := ledger.sources.map (updateSnippets item.snippet citationId) }
    item.sectionName citationId,
   webIndex, mcpIndex)

/-- The loop body of `build_citation_ledger` (`tools.py` 452-491), as a fold
step over `(ledger, web_index, mcp_index)`. -/
def mergeEvidenceItem (st : Ledger × Nat × Nat) (item : EvidenceItem) : Ledger × Nat × Nat :=
  match st with
  | (ledger, webIndex, mcpIndex) =>
      match lookupAssoc ledger.by_fingerprint (fpOf item) with
      | none => mergeFreshItem ledger webIndex mcpIndex item
      | some citationId => mergeExistingItem ledger webIndex mcpIndex item citationId

/-- Models `build_citation_ledger` after JSON decoding: seed the per-channel
counters from the prior ledger and fold the evidence list. -/
def buildCitationLedger (evidence : List EvidenceItem) (prior : Ledger) : Ledger :=
  (evidence.foldl mergeEvidenceItem
    (prior, extractExistingMaxIndex prior SourceChannel.WEB,
     extractExistingMaxIndex prior SourceChannel.ALB_MCP)).1

/-! #### Serialization of the ledger (`json.dumps(ledger, ensure_ascii=False, indent=2)`) -/

/-- JSON string escaping (the escapes relevant to ledger content). -/
def jsonEscape (s : String) : String :=
  String.mk (s.data.foldr
    (fun c acc =>
      if c = '"' then '\\' :: '"' :: acc
      else if c = '\\' then '\\' :: '\\' :: acc
      else if c = '\n' then '\\' :: 'n' :: acc
      else if c = '\t' then '\\' :: 't' :: acc
      else if c = '\r' then '\\' :: 'r' :: acc
      else c :: acc)
    [])

/-- A quoted JSON string. -/
def dumpStr (s : String) : String :=
  "\"" ++ jsonEscape s ++ "\""

/-- An indented JSON array of strings. -/
def dumpStrArr (indent : String) (l : List String) : String :=
  if l = [] then "[]"
  else "[\n" ++ joinWith ",\n" (l.map (fun s => indent ++ "  " ++ dumpStr s))
    ++ "\n" ++ indent ++ "]"

/-- One serialized `sources` entry. -/
def dumpEntry (indent : String) (e : SourceEntry) : String :=
  indent ++ "\x7b\n"
    ++ indent ++ "  " ++ dumpStr "citation_id" ++ ": " ++ dumpStr e.citation_id ++ ",\n"
    ++ indent ++ "  " ++ dumpStr "channel" ++ ": " ++ dumpStr e.channel ++ ",\n"
    ++ indent ++ "  " ++ dumpStr "title" ++ ": " ++ dumpStr e.title ++ ",\n"
    ++ indent ++ "  " ++ dumpStr "url" ++ ": " ++ dumpStr e.url ++ ",\n"
    ++ indent ++ "  " ++ dumpStr "raw_citation" ++ ": " ++ dumpStr e.raw_citation ++ ",\n"
    ++ indent ++ "  " ++ dumpStr "snippets" ++ ": " ++ dumpStrArr (indent ++ "  ") e.snippets
    ++ "\n" ++ indent ++ "\x7d"

/-- The serialized ledger returned by the tool (insertion-ordered keys). -/
def dumpLedger (ledger : Ledger) : String :=
  let sourcesPart :=
    if ledger.sources = [] then "[]"
    else "[\n" ++ joinWith ",\n" (ledger.sources.map (dumpEntry "    ")) ++ "\n  ]"
  let fingerprintPart :=
    if ledger.by_fingerprint = [] then "\x7b\x7d"
    else "\x7b\n"
      ++ joinWith ",\n" (ledger.by_fingerprint.map
          (fun kv => "    " ++ dumpStr kv.1 ++ ": " ++ dumpStr kv.2))
      ++ "\n  \x7d"
  let sectionPart :=
    if ledger.section_map = [] then "\x7b\x7d"
    else "\x7b\n"
      ++ joinWith ",\n" (ledger.section_map.map
          (fun kv => "    " ++ dumpStr kv.1 ++ ": " ++ dumpStrArr "    " kv.2))
      ++ "\n  \x7d"
  "\x7b\n  " ++ dumpStr "sources" ++ ": " ++ sourcesPart ++ ",\n  "
    ++ dumpStr "by_fingerprint" ++ ": " ++ fingerprintPart ++ ",\n  "
    ++ dumpStr "section_map" ++ ": " ++ sectionPart ++ "\n\x7d"

/-- An execution environment for one tool run. `build_citation_ledger` never
consults the clock or any randomness source (`tools.py` 440-495 calls only
`json`, `hashlib.sha1` and pure string operations), which the definition
below records by construction. -/
structure RunEnv where
  wallClockMillis : Nat
  randomSeed : Nat
deriving DecidableEq, Repr

/-- One run of the `build_citation_ledger` tool in an environment: parse
inputs (structured here), merge, and serialize the resulting ledger. -/
def buildCitationLedgerRun (_env : RunEnv) (evidence : List EvidenceItem)
    (prior : Option Ledger) : String :=
  dumpLedger (buildCitationLedger evidence (prior.getD emptyLedger))

/-! ### `_decide_retrieval_route` (`tools.py` lines 290-333) -/

inductive RetrievalRoute where
  | INTERNAL
  | EXTERNAL
  | HYBRID
deriving DecidableEq, Repr

/-- Freshness keyword signals (the CJK literals are the source constants). -/
def freshnessSignals : List String :=
  ["latest", "today", "current", "news", "recent", "实时", "最新", "近况"]

/-- Internal-knowledge keyword signals. -/
def internalSignals : List String :=
  ["internal", "private", "policy", "playbook", "history", "内部", "私有", "制度", "知识库"]

/-- Does the lower-cased query contain a freshness keyword? -/
def hasFreshnessSignal (query : String) : Bool :=
  freshnessSignals.any (fun k => isSubList k.data (lowerStr query).data)

/-- Does the lower-cased query contain an internal-knowledge keyword? -/
def hasInternalSignal (query : String) : Bool :=
  internalSignals.any (fun k => isSubList k.data (lowerStr query).data)

/-- Models `_decide_retrieval_route`: the routing cascade, with its rationale. -/
def decideRetrievalRoute (query : String) (needFreshness preferInternal : Bool) :
    RetrievalRoute × String :=
  let hasFresh := hasFreshnessSignal query
  let hasInternal := hasInternalSignal query
  if preferInternal && (!needFreshness && !hasFresh) then
    (.INTERNAL, "Explicit internal preference with no freshness requirement")
  else if needFreshness && (!preferInternal && !hasInternal) then
    (.EXTERNAL, "Freshness required without private-knowledge dependency")
  else if hasInternal && hasFresh then
    (.HYBRID, "Query mixes internal-depth and external-freshness signals")
  else if preferInternal && needFreshness then
    (.HYBRID, "Both internal depth and external freshness are requested")
  else if hasInternal then
    (.INTERNAL, "Internal/private knowledge signals detected")
  else if hasFresh then
    (.EXTERNAL, "Freshness/news signals detected")
  else
    (.HYBRID, "Default to hybrid retrieval for balanced depth and coverage")

/-- Refinement reference for the amended routing claim, written from the
amended wording over the four abstract signals: an uncontradicted explicit
flag wins; internal+freshness signals force hybrid when both are keywords or
both are flags; otherwise the keyword signals decide; default hybrid. -/
def routeSpecAmended (hasInternal hasFresh needFreshness preferInternal : Bool) :
    RetrievalRoute :=
  if preferInternal && !needFreshness && !hasFresh then .INTERNAL
  else if needFreshness && !preferInternal && !hasInternal then .EXTERNAL
  else if (hasInternal && hasFresh) || (preferInternal && needFreshness) then .HYBRID
  else if hasInternal then .INTERNAL
  else if hasFresh then .EXTERNAL
  else .HYBRID

/-! ### `MemoryPathManager` (`memory_paths.py`) -/

/-- A character allowed by `SAFE_ID_PATTERN`. -/
def safeIdChar (c : Char) : Bool :=
  isAsciiLetter c || isAsciiDigit c || c = '_' || c = '-'

/-- Models `SAFE_ID_PATTERN.match(s)` succeeding: 1-64 safe characters, with the
Python `$` quirk of also matching just before one trailing newline. -/
def safeIdMatch (s : String) : Bool :=
  let core : List Char :=
    match s.data.getLast? with
    | some c => if c = '\n' then s.data.dropLast else s.data
    | none => s.data
  !core.isEmpty && core.length ≤ 64 && core.all safeIdChar

structure MemoryPathManager where
  user_id : String
  thread_id : String
deriving DecidableEq, Repr

/-- The frozen-dataclass constructor, over explicit keyword arguments.
Python raises `TypeError` for an unexpected or missing keyword before
`__post_init__` runs its `SAFE_ID_PATTERN` validation (`ValueError`). -/
def memoryPathManagerInit (kwargs : List (String × String)) :
    Except PyError MemoryPathManager :=
  if kwargs.any (fun kv => kv.1 ≠ "user_id" && kv.1 ≠ "thread_id") then
    .error { name := "TypeError", msg := "__init__ got an unexpected keyword argument" }
  else
    match lookupAssoc kwargs "user_id", lookupAssoc kwargs "thread_id" with
    | some u, some t =>
        if safeIdMatch u then
          if safeIdMatch t then .ok { user_id := u, thread_id := t }
          else .error { name := "ValueError", msg := "Invalid thread_id. Allowed: [a-zA-Z0-9_-], 1-64 chars" }
        else .error { name := "ValueError", msg := "Invalid user_id. Allowed: [a-zA-Z0-9_-], 1-64 chars" }
    | _, _ =>
        .error { name := "TypeError", msg := "__init__ missing required positional argument" }

/-- Models `str(self.user_root())`. -/
def userRootStr (pm : MemoryPathManager) : String :=
  "/memories/users/" ++ pm.user_id

/-- Models `str(self.thread_root())` (also the mission root). -/
def threadRootStr (pm : MemoryPathManager) : String :=
  userRootStr pm ++ "/threads/" ++ pm.thread_id

/-- Segments of a POSIX path string: split on `/`, dropping empty segments
and `.` (the `PurePosixPath` normalization; `..` is kept, not resolved). -/
def posixSegs (s : String) : List String :=
  ((splitOnCharGo '/' s.data []).map String.mk).filter (fun seg => seg ≠ "" && seg ≠ ".")

/-- Models `PurePosixPath.joinpath` with one part against an absolute base: an
absolute part replaces the base, otherwise the normalized segments are
appended. -/
def pyJoinOne (base : String) (part : String) : String :=
  if isPrefixList ['/'] part.data then
    "/" ++ joinWith "/" (posixSegs part)
  else
    match posixSegs part with
    | [] => base
    | segs => base ++ "/" ++ joinWith "/" segs

/-- Models `thread_path(*parts)` (`memory_paths.py` 51-56): join, then check that
the *string* of the joined path starts with the root string. -/
def threadPathE (pm : MemoryPathManager) (parts : List String) : Except PyError String :=
  let root := threadRootStr pm
  let path := parts.foldl pyJoinOne root
  if isPrefixList root.data path.data then .ok path
  else .error { name := "PermissionError", msg := "Path traversal blocked for thread scope" }

/-- POSIX resolution of an absolute path: `..` pops a segment (and is a no-op
at the root), matching what a filesystem does with the returned string. -/
def resolvePosixGo : List String → List String → List String
  | [], acc => acc.reverse
  | s :: rest, acc =>
      if s = ".." then resolvePosixGo rest (acc.drop 1)
      else resolvePosixGo rest (s :: acc)

/-- Resolve an absolute POSIX path string. -/
def resolvePosix (p : String) : String :=
  "/" ++ joinWith "/" (resolvePosixGo (posixSegs p) [])

/-- Is `p` the scope root or strictly inside it (as resolved paths)? -/
def isWithinScope (p root : String) : Bool :=
  p = root || isPrefixList (root ++ "/").data p.data

/-! ### Storage backend and tool wiring
(`backend_factory.py`, `tools.py` lines 157-238 and 544-856)

The backend capability is modelled from the spec storage interface (§6):
`download` returns the stored text or not-found, `write` stores, `edit`
replaces the full previous content (the only way the engine calls it). The
store is the association list from paths to contents. -/

/-- The tenant file store. -/
abbrev Store := List (String × String)

/-- Models `PUBLIC_FINAL_REPORT_PATH`. -/
def publicFinalReportPath : String := "/final_report.md"

/-- Models `PUBLIC_SOURCES_APPENDIX_PATH`. -/
def publicSourcesAppendixPath : String := "/sources_appendix.md"

/-- Models `create_tenant_backend` (`backend_factory.py` 11-35): resolves the tenant
ids and then constructs `MemoryPathManager(user_id=..., mission_id=...)`.
The backend handle itself is modelled by the store operations below; the
constructor call is the observable step. -/
def createTenantBackend (userId missionId : String) : Except PyError Unit :=
  match memoryPathManagerInit [("user_id", userId), ("mission_id", missionId)] with
  | .error e => .error e
  | .ok _ => .ok ()

/-- Modelled from the spec: `download(path) -> content | not-found` of the
storage backend interface (§6); the store is the single source of truth. -/
def downloadCore (st : Store) (p : String) : Option String :=
  lookupAssoc st p

/-- Modelled from the spec: `write(path, content) -> ok` of the storage
backend interface (§6). -/
def writeCore (st : Store) (p c : String) : Store :=
  updateAssoc st p c

/-- Modelled from the spec: `edit(path, old, new)` performing a full-content
replace when `old` is the entire previous content (§4.3/§6), failing on a
missing file or a content mismatch. -/
def editCore (st : Store) (p oldContent newContent : String) : Except PyError Store :=
  match lookupAssoc st p with
  | none => .error { name := "ValueError", msg := "file not found" }
  | some content =>
      if content = oldContent then .ok (updateAssoc st p newContent)
      else .error { name := "ValueError", msg := "old content not found in file" }

/-- Models `_upsert_text_file` after the backend is obtained (`tools.py` 185-209):
create if absent, no-op if byte-identical, full-content edit otherwise. -/
def upsertCore (st : Store) (p c : String) : Except PyError (String × Store) :=
  match downloadCore st p with
  | none => .ok ("created", writeCore st p c)
  | some previousContent =>
      if previousContent = c then .ok ("unchanged", st)
      else
        match editCore st p previousContent c with
        | .error e => .error e
        | .ok st2 => .ok ("updated", st2)

/-- Models `_upsert_text_file` (`tools.py` 182-209) including the
`create_tenant_backend` call it begins with. -/
def upsertTextFileTool (userId missionId : String) (st : Store) (p c : String) :
    Except PyError (String × Store) :=
  match createTenantBackend userId missionId with
  | .error e => .error e
  | .ok _ => upsertCore st p c

/-- Models `_read_text_file` (`tools.py` 212-222): absent files read as `""`. -/
def readTextFileTool (userId missionId : String) (st : Store) (p : String) :
    Except PyError String :=
  match createTenantBackend userId missionId with
  | .error e => .error e
  | .ok _ => .ok ((downloadCore st p).getD "")

/-- Models `_upsert_dual_artifact` (`tools.py` 225-238). -/
def upsertDualArtifact (userId missionId : String) (st : Store)
    (privatePath publicPath c : String) : Except PyError (PyJson × Store) :=
  match upsertTextFileTool userId missionId st privatePath c with
  | .error e => .error e
  | .ok privResult =>
      match upsertTextFileTool userId missionId privResult.2 publicPath c with
      | .error e => .error e
      | .ok pubResult =>
          .ok (.obj [("private_path", .str privatePath),
                     ("private_status", .str privResult.1),
                     ("public_path", .str publicPath),
                     ("public_status", .str pubResult.1)],
               pubResult.2)

/-- Models `_safe_tool_error` (`tools.py` 170-179) as a structured JSON value. -/
def safeToolError (toolName : String) (e : PyError) : PyJson :=
  .obj [("status", .str "error"), ("tool", .str toolName),
        ("error_type", .str e.name), ("message", .str e.msg)]

/-- The `status` field of a tool result, when it is a JSON object with a
string-valued status. -/
def statusOf (v : PyJson) : Option String :=
  match v with
  | .obj fields =>
      match lookupAssoc fields "status" with
      | some (.str s) => some s
      | _ => none
  | _ => none

/-- Models `_get_path_manager_from_runtime` (`tools.py` 157-159): this call site
uses the correct `thread_id` keyword (the mission id flows into it). -/
def getPathManagerFromRuntime (userId missionId : String) :
    Except PyError MemoryPathManager :=
  memoryPathManagerInit [("user_id", userId), ("thread_id", missionId)]

/-- Models `persist_citation_ledger` (`tools.py` 577-597). -/
def persistCitationLedgerTool (ledgerJson userId missionId : String) (st : Store) :
    PyJson × Store :=
  match (match getPathManagerFromRuntime userId missionId with
         | .error e => .error e
         | .ok pm =>
             match threadPathE pm ["knowledge_graph", "citation_ledger.json"] with
             | .error e => .error e
             | .ok ledgerPath =>
                 match upsertTextFileTool userId missionId st ledgerPath ledgerJson with
                 | .error e => .error e
                 | .ok result =>
                     .ok (PyJson.str ("Citation ledger " ++ result.1 ++ ": " ++ ledgerPath),
                          result.2) : Except PyError (PyJson × Store)) with
  | .ok r => r
  | .error e => (safeToolError "persist_citation_ledger" e, st)

/-- Models `persist_sources_appendix` (`tools.py` 600-634). -/
def persistSourcesAppendixTool (sourcesMarkdown userId missionId : String) (st : Store) :
    PyJson × Store :=
  match (match getPathManagerFromRuntime userId missionId with
         | .error e => .error e
         | .ok pm =>
             match threadPathE pm ["drafts", "sources_appendix.md"] with
             | .error e => .error e
             | .ok privatePath =>
                 match upsertDualArtifact userId missionId st privatePath
                         publicSourcesAppendixPath sourcesMarkdown with
                 | .error e => .error e
                 | .ok dual =>
                     .ok (PyJson.obj ([("status", .str "ok"),
                                       ("artifact", .str "sources_appendix")]
                            ++ [("dual", dual.1),
                                ("delivery_path", .str publicSourcesAppendixPath)]),
                          dual.2) : Except PyError (PyJson × Store)) with
  | .ok r => r
  | .error e => (safeToolError "persist_sources_appendix" e, st)

/-- Models `finalize_mission_report` (`tools.py` 637-687). -/
def finalizeMissionReportTool (reportBody appendixMarkdown userId missionId : String)
    (st : Store) : PyJson × Store :=
  match (match getPathManagerFromRuntime userId missionId with
         | .error e => .error e
         | .ok pm =>
             match threadPathE pm ["drafts", "sources_appendix.md"] with
             | .error e => .error e
             | .ok appendixPath =>
                 match threadPathE pm ["drafts", "final_report.md"] with
                 | .error e => .error e
                 | .ok privatePath =>
                     match (if pyStrip appendixMarkdown = "" then
                              match readTextFileTool userId missionId st appendixPath with
                              | .error e => .error e
                              | .ok t => .ok (pyStrip t)
                            else .ok (pyStrip appendixMarkdown) : Except PyError String) with
                     | .error e => .error e
                     | .ok appendix =>
                         let composed :=
                           if appendix ≠ "" then
                             pyRstrip reportBody ++ "\n\n---\n\n" ++ appendix ++ "\n"
                           else pyRstrip reportBody ++ "\n"
                         match upsertDualArtifact userId missionId st privatePath
                                 publicFinalReportPath composed with
                         | .error e => .error e
                         | .ok dual =>
                             .ok (PyJson.obj ([("status", .str "ok"),
                                               ("artifact", .str "final_report")]
                                    ++ [("dual", dual.1),
                                        ("delivery_path", .str publicFinalReportPath)]),
                                  dual.2) : Except PyError (PyJson × Store)) with
  | .ok r => r
  | .error e => (safeToolError "finalize_mission_report" e, st)

/-- The JSON payload of a gate result (`tools.py` 743-752 and 793-805). -/
def gateResultToJson (privatePath : String) (r : GateResult) : PyJson :=
  match r.reason with
  | some why =>
      .obj [("status", .str r.status), ("reason", .str why),
            ("final_report_path", .str publicFinalReportPath)]
  | none =>
      .obj [("status", .str r.status),
            ("repaired", .bool (r.repaired.getD false)),
            ("notes", .arr (r.notes.map PyJson.str)),
            ("final_report_path", .str publicFinalReportPath),
            ("final_report_private_path", .str privatePath),
            ("unmatched_inline_citations", .arr ((r.unmatched.getD []).map PyJson.str))]

/-- Models `verify_and_repair_final_report` (`tools.py` 719-807): read the three
stored texts, run the gate body, and apply the dual write on repair. -/
def verifyAndRepairTool (userId missionId : String) (st : Store) : PyJson × Store :=
  match (match getPathManagerFromRuntime userId missionId with
         | .error e => .error e
         | .ok pm =>
             match threadPathE pm ["knowledge_graph", "citation_ledger.json"] with
             | .error e => .error e
             | .ok ledgerPath =>
                 match threadPathE pm ["drafts", "final_report.md"] with
                 | .error e => .error e
                 | .ok privatePath =>
                     match readTextFileTool userId missionId st publicFinalReportPath with
                     | .error e => .error e
                     | .ok pubText =>
                         match readTextFileTool userId missionId st privatePath with
                         | .error e => .error e
                         | .ok privText =>
                             match readTextFileTool userId missionId st ledgerPath with
                             | .error e => .error e
                             | .ok ledgerText =>
                                 let r := gateCore pubText privText ledgerText
                                 match (match r.written with
                                        | none => .ok st
                                        | some t =>
                                            match upsertTextFileTool userId missionId st
                                                    privatePath t with
                                            | .error e => .error e
                                            | .ok st1 =>
                                                match upsertTextFileTool userId missionId
                                                        st1.2 publicFinalReportPath t with
                                                | .error e => .error e
                                                | .ok st2 => .ok st2.2
                                          : Except PyError Store) with
                                 | .error e => .error e
                                 | .ok st2 =>
                                     .ok (gateResultToJson privatePath r, st2)
           : Except PyError (PyJson × Store)) with
  | .ok r => r
  | .error e => (safeToolError "verify_and_repair_final_report" e, st)

/-- Models `publish_final_report` (`tools.py` 810-856): finalize, verify, and wrap
both results. The inner tools catch their own exceptions, so this body only
inspects the verify payload status (`json.loads` of the returned text is
modelled by the structured payload itself). -/
def publishFinalReportTool (reportBody appendixMarkdown userId missionId : String)
    (st : Store) : PyJson × Store :=
  let finalizeResult := finalizeMissionReportTool reportBody appendixMarkdown userId missionId st
  let verifyResult := verifyAndRepairTool userId missionId finalizeResult.2
  let verifyStatus := lowerStr ((statusOf verifyResult.1).getD "fail")
  (.obj [("status", .str (if verifyStatus = "pass" then "pass" else "fail")),
         ("finalize", finalizeResult.1),
         ("verify", verifyResult.1),
         ("delivery_path", .str publicFinalReportPath),
         ("next_action", .str (if verifyStatus = "pass" then "complete"
                               else "repair_and_retry_publish"))],
   verifyResult.2)

/-! ### Statement-level notions for the ledger invariants -/

/-- An existing ledger entry may only grow its snippet list across a merge:
every identifying field is unchanged and the new snippet list is the old one
plus fresh, pairwise-distinct snippets (dedup by exact match). -/
def SnippetExtends (old new : SourceEntry) : Prop :=
  new.citation_id = old.citation_id ∧ new.channel = old.channel ∧
  new.title = old.title ∧ new.url = old.url ∧
  new.raw_citation = old.raw_citation ∧
  ∃ appended, new.snippets = old.snippets ++ appended ∧ appended.Nodup ∧
    ∀ x ∈ appended, x ∉ old.snippets

/-- The reference list of a section in the section map (empty if absent). -/
def sectionRefs (ledger : Ledger) (sec : String) : List String :=
  (lookupAssoc ledger.section_map sec).getD []

/-- What a merge may do to a prior ledger: existing entries only snippet-
extend in place, the fingerprint index only grows at the end, and every
section reference list only grows at the end. -/
def LedgerExtends (l1 l2 : Ledger) : Prop :=
  List.Forall₂ SnippetExtends l1.sources (l2.sources.take l1.sources.length)
  ∧ (∃ ext, l2.by_fingerprint = l1.by_fingerprint ++ ext)
  ∧ (∀ sec, ∃ ext, sectionRefs l2 sec = sectionRefs l1 sec ++ ext)

/-- Count of evidence items normalizing to the web channel. -/
def countWeb (evidence : List EvidenceItem) : Nat :=
  (evidence.filter (fun e => normalizeSourceChannel e.channel = SourceChannel.WEB)).length

/-- Count of evidence items normalizing to the internal (MCP) channel. -/
def countMcp (evidence : List EvidenceItem) : Nat :=
  (evidence.filter (fun e => normalizeSourceChannel e.channel = SourceChannel.ALB_MCP)).length

/-- Number of sources a merge appends: one per first occurrence of a
fingerprint that is not already registered. `seen` is the set of fingerprint
keys registered so far. -/
def countNewFps (seen : List String) : List EvidenceItem → Nat
  | [] => 0
  | e :: es =>
      if fpOf e ∈ seen then countNewFps seen es
      else countNewFps (seen ++ [fpOf e]) es + 1

/-- The entries appended by a merge of all-fresh evidence starting from
per-channel counters `w` and `m`. -/
def freshEntries (w m : Nat) : List EvidenceItem → List SourceEntry
  | [] => []
  | e :: es =>
      if normalizeSourceChannel e.channel = SourceChannel.WEB then
        mkFreshEntry e (newCitationId SourceChannel.WEB (w + 1)) :: freshEntries (w + 1) m es
      else
        mkFreshEntry e (newCitationId SourceChannel.ALB_MCP (m + 1)) :: freshEntries w (m + 1) es

/-! ### Concrete fixtures used by witnesses and counterexamples -/

/-- A ledger JSON text whose only source is `WEB-1`. -/
def fixtureLedgerWebOne : String :=
  "\x7b\"sources\": [\x7b\"citation_id\": \"WEB-1\", \"channel\": \"web\", \"title\": \"Alpha\", \"url\": \"http://a\", \"raw_citation\": \"\"\x7d]\x7d"

/-- The document produced by one gate repair of `"Cite [WEB-2]."` against
`fixtureLedgerWebOne` (the ledger cannot supply `WEB-2`, so the repaired
document still fails the gate). -/
def fixtureRepairedOnce : String :=
  (gateCore "Cite [WEB-2]." "" fixtureLedgerWebOne).written.getD ""

/-- A report that already passes the gate. -/
def fixturePassingReport : String :=
  "Intro [WEB-1]\n\n### Sources\n[WEB-1] (web) Alpha: http://a\n"

/-- Evidence list: two web items and one internal item, pairwise-distinct
fingerprints, channels interleaved. -/
def fixtureEvidenceThree : List EvidenceItem :=
  [ { channel := some "web", title := "Alpha", url := "http://a", sectionName := "Intro",
      raw_citation := "", snippet := "s1" }
  , { channel := some "mcp", title := "Beta", url := "kb://b", sectionName := "Intro",
      raw_citation := "", snippet := "" }
  , { channel := some "web", title := "Gamma", url := "http://c", sectionName := "Analysis",
      raw_citation := "", snippet := "s3" } ]

/-! ## Theorems -/

/-! ### Association-list lemmas -/

theorem lookupAssoc_updateAssoc_self {α : Type} (l : List (String × α)) (k : String) (v : α) :
    lookupAssoc (updateAssoc l k v) k = some v := by
  induction l with
  | nil => simp [updateAssoc, lookupAssoc]
  | cons kv rest ih =>
      by_cases h : kv.1 = k
      · simp [updateAssoc, lookupAssoc, h]
      · simp [updateAssoc, lookupAssoc, h, ih]

theorem lookupAssoc_updateAssoc_other {α : Type} (l : List (String × α)) (k k2 : String)
    (v : α) (h : k2 ≠ k) : lookupAssoc (updateAssoc l k v) k2 = lookupAssoc l k2 := by
  have hk2 : ¬ k = k2 := fun hh => h hh.symm
  induction l with
  | nil =>
      simp only [updateAssoc, lookupAssoc]
      rw [if_neg hk2]
  | cons kv rest ih =>
      by_cases hk : kv.1 = k
      · have hkv2 : ¬ kv.1 = k2 := by rw [hk]; exact hk2
        simp only [updateAssoc, if_pos hk, lookupAssoc, if_neg hk2, if_neg hkv2]
      · simp only [updateAssoc, if_neg hk, lookupAssoc]
        by_cases hkv2 : kv.1 = k2
        · rw [if_pos hkv2, if_pos hkv2]
        · rw [if_neg hkv2, if_neg hkv2]
          exact ih

theorem lookupAssoc_append {α : Type} (l1 l2 : List (String × α)) (k : String) :
    lookupAssoc (l1 ++ l2) k
      = match lookupAssoc l1 k with
        | some v => some v
        | none => lookupAssoc l2 k := by
  induction l1 with
  | nil => simp [lookupAssoc]
  | cons kv rest ih =>
      by_cases h : kv.1 = k
      · simp [lookupAssoc, h]
      · simp [lookupAssoc, h, ih]

theorem lookupAssoc_eq_none_iff {α : Type} (l : List (String × α)) (k : String) :
    lookupAssoc l k = none ↔ k ∉ keysOf l := by
  induction l with
  | nil => simp [lookupAssoc, keysOf]
  | cons kv rest ih =>
      by_cases h : kv.1 = k
      · simp [lookupAssoc, h, keysOf]
      · have h2 : ¬ k = kv.1 := fun hh => h hh.symm
        simp [lookupAssoc, h, keysOf, ih, h2]

/-! ### C4 — path derivation does not fail on `..` traversal (code bug) -/

/-- C4: the claim says every `thread_path` derivation either stays inside the
mission root or fails with a path-escape error. The code only checks a
string prefix, so for the valid scope `(user_id="u", thread_id="t")` the
parts `["..", "secret"]` are accepted and the returned path resolves to
`/memories/users/u/threads/secret`, outside the mission root
`/memories/users/u/threads/t` — the claimed failure never happens. -/
theorem claim4_path_escape_bug :
    safeIdMatch "u" = true ∧ safeIdMatch "t" = true
    ∧ threadPathE { user_id := "u", thread_id := "t" } ["..", "secret"]
        = .ok "/memories/users/u/threads/t/../secret"
    ∧ resolvePosix "/memories/users/u/threads/t/../secret"
        = "/memories/users/u/threads/secret"
    ∧ isWithinScope (resolvePosix "/memories/users/u/threads/t/../secret")
        (threadRootStr { user_id := "u", thread_id := "t" }) = false := by
  refine ⟨by decide, by decide, by rfl, by rfl, by decide⟩

/-! ### C5 — upsert engine: created / unchanged / updated / unchanged -/

/-- C5: starting from an absent file, `upsert(p, c)` creates; repeating it
with identical content is a no-op returning `unchanged` (the store value is
untouched); a different content performs a full replace returning `updated`;
repeating that returns `unchanged` again. -/
theorem claim5_upsert_idempotence (st : Store) (p c cNew : String)
    (habsent : lookupAssoc st p = none) (hne : c ≠ cNew) :
    upsertCore st p c = .ok ("created", writeCore st p c)
    ∧ upsertCore (writeCore st p c) p c = .ok ("unchanged", writeCore st p c)
    ∧ upsertCore (writeCore st p c) p cNew
        = .ok ("updated", writeCore (writeCore st p c) p cNew)
    ∧ upsertCore (writeCore (writeCore st p c) p cNew) p cNew
        = .ok ("unchanged", writeCore (writeCore st p c) p cNew)
    ∧ lookupAssoc (writeCore (writeCore st p c) p cNew) p = some cNew := by
  have h1 : lookupAssoc (updateAssoc st p c) p = some c :=
    lookupAssoc_updateAssoc_self st p c
  have h2 : lookupAssoc (updateAssoc (updateAssoc st p c) p cNew) p = some cNew :=
    lookupAssoc_updateAssoc_self (updateAssoc st p c) p cNew
  refine ⟨?_, ?_, ?_, ?_, h2⟩
  · simp [upsertCore, downloadCore, habsent]
  · simp [upsertCore, downloadCore, writeCore, h1]
  · simp [upsertCore, downloadCore, writeCore, h1, hne, editCore]
  · simp [upsertCore, downloadCore, writeCore, h2]

/-- Witness for C5 at a concrete store and contents. -/
theorem claim5_upsert_idempotence_witness :
    upsertCore [] "/f.md" "alpha" = .ok ("created", writeCore [] "/f.md" "alpha")
    ∧ upsertCore (writeCore [] "/f.md" "alpha") "/f.md" "alpha"
        = .ok ("unchanged", writeCore [] "/f.md" "alpha")
    ∧ upsertCore (writeCore [] "/f.md" "alpha") "/f.md" "beta"
        = .ok ("updated", writeCore (writeCore [] "/f.md" "alpha") "/f.md" "beta")
    ∧ upsertCore (writeCore (writeCore [] "/f.md" "alpha") "/f.md" "beta") "/f.md" "beta"
        = .ok ("unchanged", writeCore (writeCore [] "/f.md" "alpha") "/f.md" "beta") := by
  have h := claim5_upsert_idempotence [] "/f.md" "alpha" "beta" (by rfl) (by decide)
  exact ⟨h.1, h.2.1, h.2.2.1, h.2.2.2.1⟩

/-! ### C7 — build_citation_ledger is deterministic across runs -/

/-- C7: two runs of the `build_citation_ledger` tool in different execution
environments (wall clock, randomness seed) over the same evidence list and
prior ledger produce byte-identical serialized ledger output: the merge and
its serialization read nothing from the environment. -/
theorem claim7_build_ledger_deterministic (env1 env2 : RunEnv)
    (evidence : List EvidenceItem) (prior : Option Ledger) :
    buildCitationLedgerRun env1 evidence prior = buildCitationLedgerRun env2 evidence prior := rfl

/-! ### C9 — retrieval-route precedence (corrected) -/

/-- C9 counterexample: with `need_freshness=True` (a freshness signal from a
flag) and the query `"internal"` (an internal signal from a keyword), the
claim requires the hybrid route, but the code returns the internal route. -/
theorem claim9_counterexample :
    (decideRetrievalRoute "internal" true false).1 = RetrievalRoute.INTERNAL
    ∧ (decideRetrievalRoute "internal" true false).2
        = "Internal/private knowledge signals detected"
    ∧ RetrievalRoute.INTERNAL ≠ RetrievalRoute.HYBRID := by
  refine ⟨by rfl, by rfl, by decide⟩

/-- C9 amended: an explicit flag wins outright only when both the opposite
flag and the opposite keyword signal are absent; simultaneous internal and
freshness signals force hybrid when both come from keywords or both from
flags; a flag on one dimension contradicted only by a keyword on the other
falls through to the keyword rules (internal keyword wins, then freshness
keyword); with no signals the route is hybrid. -/
theorem claim9_route_precedence_amended (query : String)
    (needFreshness preferInternal : Bool) :
    (decideRetrievalRoute query needFreshness preferInternal).1
      = routeSpecAmended (hasInternalSignal query) (hasFreshnessSignal query)
          needFreshness preferInternal := by
  cases hI : hasInternalSignal query <;> cases hF : hasFreshnessSignal query <;>
    cases needFreshness <;> cases preferInternal <;>
      simp [decideRetrievalRoute, routeSpecAmended, hI, hF]

/-! ### Set-and-sort lemmas for the gate -/

theorem insertSorted_ne_nil (x : String) (l : List String) : insertSorted x l ≠ [] := by
  cases l with
  | nil => simp [insertSorted]
  | cons y ys =>
      unfold insertSorted
      by_cases h : charListLt y.data x.data = true
      · simp [h]
      · simp [h]

theorem sortStrings_eq_nil_iff (l : List String) : sortStrings l = [] ↔ l = [] := by
  cases l with
  | nil => simp [sortStrings]
  | cons x xs =>
      simp only [sortStrings]
      constructor
      · intro h
        exact absurd h (insertSorted_ne_nil x (sortStrings xs))
      · intro h
        exact absurd h (by simp)

theorem setDiff_eq_nil_iff (a b : List String) : setDiff a b = [] ↔ a ⊆ b := by
  induction a with
  | nil => simp [setDiff]
  | cons x xs ih =>
      simp only [setDiff] at ih
      by_cases hx : x ∈ b
      · simp [setDiff, List.filter_cons, hx, ih, List.cons_subset, List.subset_def]
      · simp [setDiff, List.filter_cons, hx, List.cons_subset]

/-! ### Whitespace lemmas: a blank report has no sources heading -/

theorem all_ws_of_pyStrip_empty (s : String) (h : pyStrip s = "") :
    ∀ c ∈ s.data, isPyWhitespace c = true := by
  have hdata : ((s.data.dropWhile isPyWhitespace).reverse.dropWhile isPyWhitespace).reverse
      = [] := by
    have h2 := congrArg String.data h
    simpa [pyStrip] using h2
  have h2 : (s.data.dropWhile isPyWhitespace).reverse.dropWhile isPyWhitespace = [] := by
    have := congrArg List.reverse hdata
    simpa using this
  have h3 : ∀ c ∈ (s.data.dropWhile isPyWhitespace).reverse, isPyWhitespace c = true := by
    rw [List.dropWhile_eq_nil_iff] at h2
    exact h2
  have h4 : ∀ c ∈ s.data.dropWhile isPyWhitespace, isPyWhitespace c = true := by
    intro c hc
    exact h3 c (List.mem_reverse.mpr hc)
  intro c hc
  have hsplit : c ∈ s.data.takeWhile isPyWhitespace ++ s.data.dropWhile isPyWhitespace := by
    rw [List.takeWhile_append_dropWhile]
    exact hc
  rcases List.mem_append.mp hsplit with hmem | hmem
  · exact List.mem_takeWhile_imp hmem
  · exact h4 c hmem

theorem asciiLower_of_ws (c : Char) (h : isPyWhitespace c = true) : asciiLower c = c := by
  simp only [isPyWhitespace, Bool.or_eq_true, decide_eq_true_eq] at h
  rcases h with ((((h | h) | h) | h) | h) | h <;> subst h <;> decide

theorem isSubList_hash_false (rest : List Char) (hay : List Char)
    (hws : ∀ c ∈ hay, isPyWhitespace c = true) :
    isSubList ('#' :: rest) hay = false := by
  induction hay with
  | nil => rfl
  | cons b bs ih =>
      have hb : isPyWhitespace b = true := hws b (List.mem_cons_self b bs)
      have hbne : ¬ ('#' : Char) = b := by
        intro he
        rw [← he] at hb
        exact absurd hb (by decide)
      simp only [isSubList, isPrefixList, Bool.or_eq_false_iff, Bool.and_eq_false_iff]
      constructor
      · left
        simpa using hbne
      · exact ih (fun c hc => hws c (List.mem_cons_of_mem b hc))

theorem hasSourcesSection_of_blank (s : String) (h : pyStrip s = "") :
    hasSourcesSection s = false := by
  have hws := all_ws_of_pyStrip_empty s h
  have hws2 : ∀ c ∈ (lowerStr s).data, isPyWhitespace c = true := by
    intro c hc
    simp only [lowerStr, List.mem_map] at hc
    obtain ⟨a, ha, rfl⟩ := hc
    rw [asciiLower_of_ws a (hws a ha)]
    exact hws a ha
  show (isSubList ("### sources").data (lowerStr s).data
        || isSubList ("## sources").data (lowerStr s).data) = false
  have hd1 : ("### sources").data = '#' :: ("## sources").data := rfl
  have hd2 : ("## sources").data = '#' :: ("# sources").data := rfl
  rw [hd1, hd2, isSubList_hash_false _ _ hws2, isSubList_hash_false _ _ hws2]
  rfl

/-! ### Gate finalization lemmas -/

theorem gateFinalize_status_iff (t : String) (rep : Bool) (notes : List String) :
    (gateFinalize t rep notes).status = "pass"
      ↔ hasSourcesSection t = true
        ∧ extractInlineCitationIds t ⊆ extractSourcesSectionIds t := by
  show (if hasSourcesSection t = true
          ∧ sortStrings (setDiff (extractInlineCitationIds t)
              (extractSourcesSectionIds t)) = []
        then "pass" else "fail") = "pass"
      ↔ hasSourcesSection t = true
        ∧ extractInlineCitationIds t ⊆ extractSourcesSectionIds t
  by_cases hcond : hasSourcesSection t = true
      ∧ sortStrings (setDiff (extractInlineCitationIds t) (extractSourcesSectionIds t)) = []
  · rw [if_pos hcond]
    have hsub : extractInlineCitationIds t ⊆ extractSourcesSectionIds t :=
      (setDiff_eq_nil_iff _ _).mp ((sortStrings_eq_nil_iff _).mp hcond.2)
    simp [hcond.1, hsub]
  · rw [if_neg hcond]
    constructor
    · intro h
      exact absurd h (by decide)
    · intro h
      exact absurd ⟨h.1, (sortStrings_eq_nil_iff _).mpr ((setDiff_eq_nil_iff _ _).mpr h.2)⟩ hcond

theorem gateFinalize_finalText (t : String) (rep : Bool) (notes : List String) :
    (gateFinalize t rep notes).finalText = t := rfl

theorem gateFinalize_unmatched (t : String) (rep : Bool) (notes : List String) :
    (gateFinalize t rep notes).unmatched
      = some (sortStrings (setDiff (extractInlineCitationIds t)
          (extractSourcesSectionIds t))) := rfl

theorem gateMain_shape (report0 ledgerText : String) :
    ∃ t rep notes, gateMain report0 ledgerText = gateFinalize t rep notes := by
  unfold gateMain
  by_cases h1 : hasSourcesSection report0 = false
  · rw [if_pos h1]
    exact ⟨_, _, _, rfl⟩
  · rw [if_neg h1]
    by_cases h2 : setDiff (extractInlineCitationIds report0)
        (extractSourcesSectionIds report0) ≠ []
    · rw [if_pos h2]
      exact ⟨_, _, _, rfl⟩
    · rw [if_neg h2]
      exact ⟨_, _, _, rfl⟩

/-! ### C1 — gate verdict characterization (corrected) -/

/-- C1 counterexample: for a stored report that is whitespace-only (with no
private fallback), the gate fails by the claimed iff, but its payload does
not carry the claimed sorted list of unmatched ids at all (the field is
absent, where the claim requires the — here empty — sorted list). -/
theorem claim1_counterexample :
    (gateCore "   " "" "").status = "fail"
    ∧ (gateCore "   " "" "").unmatched = none
    ∧ (gateCore "   " "" "").unmatched
        ≠ some (sortStrings (setDiff
            (extractInlineCitationIds (gateCore "   " "" "").finalText)
            (extractSourcesSectionIds (gateCore "   " "" "").finalText))) := by
  refine ⟨rfl, rfl, by decide⟩

/-- C1 amended: for every stored public report, private report and ledger,
the gate returns status `pass` iff, after its optional repair step, the
(possibly repaired) report text has a sources heading and every inline
citation marker of that text also appears strictly after the sources
heading; otherwise it returns `fail`, and — whenever the selected report
text is not blank — together with the sorted list of unmatched ids. (For a
blank report the gate fails with reason `final report is empty or missing`
and carries no unmatched list.) -/
theorem claim1_gate_verdict_amended (pubText privText ledgerText : String) :
    ((gateCore pubText privText ledgerText).status = "pass"
      ↔ hasSourcesSection (gateCore pubText privText ledgerText).finalText = true
        ∧ extractInlineCitationIds (gateCore pubText privText ledgerText).finalText
            ⊆ extractSourcesSectionIds (gateCore pubText privText ledgerText).finalText)
    ∧ (pyStrip (gateReport0 pubText privText) ≠ "" →
        (gateCore pubText privText ledgerText).unmatched
          = some (sortStrings (setDiff
              (extractInlineCitationIds (gateCore pubText privText ledgerText).finalText)
              (extractSourcesSectionIds (gateCore pubText privText ledgerText).finalText)))) := by
  by_cases hblank : pyStrip (gateReport0 pubText privText) = ""
  · have hg : gateCore pubText privText ledgerText
        = { status := "fail", reason := some "final report is empty or missing",
            repaired := none, notes := [], unmatched := none, written := none,
            finalText := gateReport0 pubText privText } := by
      unfold gateCore
      rw [if_pos hblank]
    constructor
    · rw [hg]
      simp [hasSourcesSection_of_blank _ hblank]
    · intro h
      exact absurd hblank h
  · have hg : gateCore pubText privText ledgerText
        = gateMain (gateReport0 pubText privText) ledgerText := by
      unfold gateCore
      rw [if_neg hblank]
    obtain ⟨t, rep, notes, heq⟩ := gateMain_shape (gateReport0 pubText privText) ledgerText
    rw [hg, heq, gateFinalize_finalText, gateFinalize_unmatched]
    exact ⟨gateFinalize_status_iff t rep notes, fun _ => rfl⟩

/-- Witness for the amended C1 at a passing report and at a failing one. -/
theorem claim1_gate_verdict_amended_witness :
    ((gateCore fixturePassingReport "" "").status = "pass"
      ↔ hasSourcesSection (gateCore fixturePassingReport "" "").finalText = true
        ∧ extractInlineCitationIds (gateCore fixturePassingReport "" "").finalText
            ⊆ extractSourcesSectionIds (gateCore fixturePassingReport "" "").finalText)
    ∧ (gateCore fixturePassingReport "" "").unmatched
        = some (sortStrings (setDiff
            (extractInlineCitationIds (gateCore fixturePassingReport "" "").finalText)
            (extractSourcesSectionIds (gateCore fixturePassingReport "" "").finalText))) := by
  have h := claim1_gate_verdict_amended fixturePassingReport "" ""
  exact ⟨h.1, h.2 (by decide)⟩

/-! ### C10 — gate idempotence (corrected) -/

set_option maxRecDepth 16384 in
/-- C10 counterexample: repair is not idempotent on an already-repaired
document when the ledger cannot cover an inline id. Repairing
`"Cite [WEB-2]."` against a ledger containing only `WEB-1` produces
`fixtureRepairedOnce`; running the gate on that already-repaired document
performs another repair and another write (it is not a no-op). -/
theorem claim10_counterexample :
    (gateCore fixtureRepairedOnce "" fixtureLedgerWebOne).repaired = some true
    ∧ (gateCore fixtureRepairedOnce "" fixtureLedgerWebOne).written ≠ none
    ∧ (gateCore fixtureRepairedOnce "" fixtureLedgerWebOne).written
        ≠ some fixtureRepairedOnce := by
  refine ⟨by decide, by decide, by decide⟩

/-- C10 amended: running the gate on a report that already passes (a sources
heading is present and every inline marker appears after it) performs no
write and returns `repaired=false` with status `pass`; but reapplying the
repair to an already-repaired document is a no-op only in that passing case
— when the ledger lacks an inline id, a rerun appends the sources section
again. -/
theorem claim10_gate_noop_amended (pubText privText ledgerText : String)
    (hnonblank : pyStrip pubText ≠ "")
    (hheading : hasSourcesSection pubText = true)
    (hsubset : extractInlineCitationIds pubText ⊆ extractSourcesSectionIds pubText) :
    gateCore pubText privText ledgerText
      = { status := "pass", reason := none, repaired := some false, notes := [],
          unmatched := some [], written := none, finalText := pubText } := by
  have hr0 : gateReport0 pubText privText = pubText := by
    unfold gateReport0
    rw [if_pos hnonblank]
  have hmiss : setDiff (extractInlineCitationIds pubText)
      (extractSourcesSectionIds pubText) = [] := (setDiff_eq_nil_iff _ _).mpr hsubset
  unfold gateCore
  rw [hr0, if_neg hnonblank]
  unfold gateMain
  rw [hheading]
  rw [if_neg (show ¬ (true = false) by decide)]
  rw [hmiss]
  rw [if_neg (show ¬ (([] : List String) ≠ []) by simp)]
  unfold gateFinalize
  rw [hheading, hmiss]
  simp [sortStrings]

/-- Witness for the amended C10 at a concrete passing report. -/
theorem claim10_gate_noop_amended_witness :
    gateCore fixturePassingReport "" fixtureLedgerWebOne
      = { status := "pass", reason := none, repaired := some false, notes := [],
          unmatched := some [], written := none, finalText := fixturePassingReport } :=
  claim10_gate_noop_amended fixturePassingReport "" fixtureLedgerWebOne
    (by decide) (by decide) (by decide)

/-! ### C8 — renderer totality and degraded output -/

theorem isPrefixList_append_self (l m : List Char) : isPrefixList l (l ++ m) = true := by
  induction l with
  | nil => rfl
  | cons c cs ih => simp [isPrefixList, ih]

theorem isPrefixList_extend (p q r : List Char) (h : isPrefixList p q = true) :
    isPrefixList p (q ++ r) = true := by
  induction p generalizing q with
  | nil => rfl
  | cons c cs ih =>
      cases q with
      | nil => exact absurd h (by simp [isPrefixList])
      | cons b bs =>
          simp only [isPrefixList, Bool.and_eq_true] at h
          simp only [List.cons_append, isPrefixList, Bool.and_eq_true]
          exact ⟨h.1, ih bs h.2⟩

theorem data_append (a b : String) : (a ++ b).data = a.data ++ b.data := rfl

theorem joinWith_cons_data (sep x : String) (xs : List String) :
    ∃ t, (joinWith sep (x :: xs)).data = x.data ++ t := by
  cases xs with
  | nil =>
      refine ⟨[], ?_⟩
      simp [joinWith]
  | cons y ys =>
      refine ⟨(sep ++ joinWith sep (y :: ys)).data, ?_⟩
      show (x ++ sep ++ joinWith sep (y :: ys)).data = _
      rw [data_append, data_append, data_append, List.append_assoc]

theorem renderFromJson_ok_shape (ledger : PyJson) (sec md : String)
    (h : renderFromJson ledger sec = .ok md) :
    ∃ t, md.data = ("### Sources").data ++ t := by
  unfold renderFromJson at h
  cases hs : sourcesAfterFilter ledger sec with
  | error e =>
      rw [hs] at h
      exact absurd h (by simp)
  | ok sources =>
      rw [hs] at h
      dsimp only at h
      cases hl : formatSourceLines sources with
      | error e =>
          rw [hl] at h
          exact absurd h (by simp)
      | ok lineList =>
          rw [hl] at h
          dsimp only at h
          simp only [Except.ok.injEq] at h
          by_cases hlen : ("### Sources" :: lineList).length = 1
          · rw [if_pos hlen] at h
            rw [← h]
            exact joinWith_cons_data "\n" "### Sources" _
          · rw [if_neg hlen] at h
            rw [← h]
            exact joinWith_cons_data "\n" "### Sources" _

/-- C8: for every input string and section filter, the renderer returns a
markdown block headed `### Sources` and never raises; when the ledger text
does not parse, the result is exactly the degraded block with the warning
line naming the error and a final `(No sources)` line; and a parsed ledger
whose filtered source list is empty renders the heading followed by the
single `(No sources)` line. -/
theorem claim8_render_never_raises :
    (∀ s sec, isPrefixList ("### Sources").data ((renderSourcesFromLedger s sec).data) = true)
    ∧ (∀ s sec e, jsonLoads (if s = "" then "\x7b\x7d" else s) = .error e →
        renderSourcesFromLedger s sec
          = "### Sources\n[WARN] render_sources_from_ledger degraded: "
            ++ e.name ++ ": " ++ e.msg ++ "\n(No sources)")
    ∧ (∀ s sec v, jsonLoads (if s = "" then "\x7b\x7d" else s) = .ok v →
        sourcesAfterFilter v sec = .ok [] →
        renderSourcesFromLedger s sec = "### Sources\n(No sources)") := by
  refine ⟨?_, ?_, ?_⟩
  · intro s sec
    unfold renderSourcesFromLedger
    cases hp : jsonLoads (if s = "" then "\x7b\x7d" else s) with
    | error e =>
        dsimp only
        rw [data_append, data_append, data_append, data_append]
        apply isPrefixList_extend
        apply isPrefixList_extend
        apply isPrefixList_extend
        apply isPrefixList_extend
        decide
    | ok v =>
        dsimp only
        cases hr : renderFromJson v sec with
        | error e =>
            dsimp only
            rw [data_append, data_append, data_append, data_append]
            apply isPrefixList_extend
            apply isPrefixList_extend
            apply isPrefixList_extend
            apply isPrefixList_extend
            decide
        | ok md =>
            dsimp only
            obtain ⟨t, ht⟩ := renderFromJson_ok_shape v sec md hr
            rw [ht]
            exact isPrefixList_append_self _ _
  · intro s sec e hp
    unfold renderSourcesFromLedger
    rw [hp]
  · intro s sec v hp hempty
    unfold renderSourcesFromLedger
    rw [hp]
    show (match renderFromJson v sec with
          | .ok md => md
          | .error e =>
              "### Sources\n[WARN] render_sources_from_ledger degraded: "
                ++ e.name ++ ": " ++ e.msg ++ "\n(No sources)") = _
    unfold renderFromJson
    rw [hempty]
    rfl

/-- Witness for C8: a non-JSON input degrades to the exact warning block; an
empty-object ledger renders the heading plus `(No sources)`. -/
theorem claim8_render_never_raises_witness :
    renderSourcesFromLedger "not json" ""
      = "### Sources\n[WARN] render_sources_from_ledger degraded: JSONDecodeError: Expecting value\n(No sources)"
    ∧ renderSourcesFromLedger "\x7b\x7d" "" = "### Sources\n(No sources)"
    ∧ isPrefixList ("### Sources").data ((renderSourcesFromLedger "[1, 2]" "").data) = true := by
  refine ⟨?_, ?_, ?_⟩
  · have h := claim8_render_never_raises.2.1 "not json" ""
      { name := "JSONDecodeError", msg := "Expecting value" } (by rfl)
    exact h.trans (by rfl)
  · exact claim8_render_never_raises.2.2 "\x7b\x7d" "" (.obj []) (by rfl) (by rfl)
  · exact claim8_render_never_raises.1 "[1, 2]" ""

/-! ### C2 — the backend factory TypeError and its fallout (corrected) -/

theorem createTenantBackend_typeError (u m : String) :
    createTenantBackend u m
      = .error { name := "TypeError", msg := "__init__ got an unexpected keyword argument" } :=
  rfl

theorem upsertTextFileTool_typeError (u m : String) (st : Store) (p c : String) :
    upsertTextFileTool u m st p c
      = .error { name := "TypeError", msg := "__init__ got an unexpected keyword argument" } :=
  rfl

theorem readTextFileTool_typeError (u m : String) (st : Store) (p : String) :
    readTextFileTool u m st p
      = .error { name := "TypeError", msg := "__init__ got an unexpected keyword argument" } :=
  rfl

theorem upsertDualArtifact_typeError (u m : String) (st : Store) (p q c : String) :
    upsertDualArtifact u m st p q c
      = .error { name := "TypeError", msg := "__init__ got an unexpected keyword argument" } :=
  rfl

theorem persistCitationLedgerTool_error (ledgerJson u m : String) (st : Store) :
    statusOf (persistCitationLedgerTool ledgerJson u m st).1 = some "error"
    ∧ (persistCitationLedgerTool ledgerJson u m st).2 = st := by
  unfold persistCitationLedgerTool
  cases hpm : getPathManagerFromRuntime u m with
  | error e => exact ⟨rfl, rfl⟩
  | ok pm =>
      dsimp only
      cases hpath : threadPathE pm ["knowledge_graph", "citation_ledger.json"] with
      | error e => exact ⟨rfl, rfl⟩
      | ok ledgerPath =>
          dsimp only
          rw [upsertTextFileTool_typeError]
          exact ⟨rfl, rfl⟩

theorem persistSourcesAppendixTool_error (sourcesMarkdown u m : String) (st : Store) :
    statusOf (persistSourcesAppendixTool sourcesMarkdown u m st).1 = some "error"
    ∧ (persistSourcesAppendixTool sourcesMarkdown u m st).2 = st := by
  unfold persistSourcesAppendixTool
  cases hpm : getPathManagerFromRuntime u m with
  | error e => exact ⟨rfl, rfl⟩
  | ok pm =>
      dsimp only
      cases hpath : threadPathE pm ["drafts", "sources_appendix.md"] with
      | error e => exact ⟨rfl, rfl⟩
      | ok privatePath =>
          dsimp only
          rw [upsertDualArtifact_typeError]
          exact ⟨rfl, rfl⟩

theorem finalizeMissionReportTool_error (reportBody appendixMarkdown u m : String)
    (st : Store) :
    statusOf (finalizeMissionReportTool reportBody appendixMarkdown u m st).1 = some "error"
    ∧ (finalizeMissionReportTool reportBody appendixMarkdown u m st).2 = st := by
  unfold finalizeMissionReportTool
  cases hpm : getPathManagerFromRuntime u m with
  | error e => exact ⟨rfl, rfl⟩
  | ok pm =>
      dsimp only
      cases hpath : threadPathE pm ["drafts", "sources_appendix.md"] with
      | error e => exact ⟨rfl, rfl⟩
      | ok appendixPath =>
          dsimp only
          cases hpath2 : threadPathE pm ["drafts", "final_report.md"] with
          | error e => exact ⟨rfl, rfl⟩
          | ok privatePath =>
              dsimp only
              by_cases happ : pyStrip appendixMarkdown = ""
              · rw [if_pos happ, readTextFileTool_typeError]
                exact ⟨rfl, rfl⟩
              · rw [if_neg happ]
                dsimp only
                rw [upsertDualArtifact_typeError]
                exact ⟨rfl, rfl⟩

theorem verifyAndRepairTool_error (u m : String) (st : Store) :
    statusOf (verifyAndRepairTool u m st).1 = some "error"
    ∧ (verifyAndRepairTool u m st).2 = st := by
  unfold verifyAndRepairTool
  cases hpm : getPathManagerFromRuntime u m with
  | error e => exact ⟨rfl, rfl⟩
  | ok pm =>
      dsimp only
      cases hpath : threadPathE pm ["knowledge_graph", "citation_ledger.json"] with
      | error e => exact ⟨rfl, rfl⟩
      | ok ledgerPath =>
          dsimp only
          cases hpath2 : threadPathE pm ["drafts", "final_report.md"] with
          | error e => exact ⟨rfl, rfl⟩
          | ok privatePath =>
              dsimp only
              rw [readTextFileTool_typeError]
              exact ⟨rfl, rfl⟩

theorem publishFinalReportTool_fail (reportBody appendixMarkdown u m : String) (st : Store) :
    statusOf (publishFinalReportTool reportBody appendixMarkdown u m st).1 = some "fail"
    ∧ (publishFinalReportTool reportBody appendixMarkdown u m st).2 = st := by
  obtain ⟨hf1, hf2⟩ := finalizeMissionReportTool_error reportBody appendixMarkdown u m st
  obtain ⟨hv1, hv2⟩ := verifyAndRepairTool_error u m
    (finalizeMissionReportTool reportBody appendixMarkdown u m st).2
  unfold publishFinalReportTool
  dsimp only
  constructor
  · rw [hv1]
    rfl
  · rw [hv2, hf2]

/-- C2 counterexample: the claim says `publish_final_report` also returns a
status `error` envelope; at a concrete valid-metadata runtime it returns
status `fail` (wrapping the inner error envelopes), not `error`. -/
theorem claim2_counterexample :
    statusOf (publishFinalReportTool "Report body" "" "user1" "mission1" []).1 = some "fail"
    ∧ statusOf (publishFinalReportTool "Report body" "" "user1" "mission1" []).1
        ≠ some "error" := by
  obtain ⟨h1, _⟩ := publishFinalReportTool_fail "Report body" "" "user1" "mission1" []
  refine ⟨h1, ?_⟩
  rw [h1]
  decide

/-- C2 amended: `create_tenant_backend` always raises `TypeError` because it
constructs `MemoryPathManager` with a `mission_id` keyword the frozen
dataclass does not accept; consequently, for every runtime metadata and
store, `persist_citation_ledger`, `persist_sources_appendix`,
`finalize_mission_report` and `verify_and_repair_final_report` return a
structured status `error` envelope and leave the store untouched, while
`publish_final_report` returns a status `fail` envelope (wrapping the inner
error envelopes) and likewise never writes or reads any artifact. -/
theorem claim2_factory_typeerror_amended (u m ledgerJson sourcesMd reportBody appendix : String)
    (st : Store) :
    createTenantBackend u m
      = .error { name := "TypeError", msg := "__init__ got an unexpected keyword argument" }
    ∧ statusOf (persistCitationLedgerTool ledgerJson u m st).1 = some "error"
    ∧ (persistCitationLedgerTool ledgerJson u m st).2 = st
    ∧ statusOf (persistSourcesAppendixTool sourcesMd u m st).1 = some "error"
    ∧ (persistSourcesAppendixTool sourcesMd u m st).2 = st
    ∧ statusOf (finalizeMissionReportTool reportBody appendix u m st).1 = some "error"
    ∧ (finalizeMissionReportTool reportBody appendix u m st).2 = st
    ∧ statusOf (verifyAndRepairTool u m st).1 = some "error"
    ∧ (verifyAndRepairTool u m st).2 = st
    ∧ statusOf (publishFinalReportTool reportBody appendix u m st).1 = some "fail"
    ∧ (publishFinalReportTool reportBody appendix u m st).2 = st := by
  obtain ⟨h1, h2⟩ := persistCitationLedgerTool_error ledgerJson u m st
  obtain ⟨h3, h4⟩ := persistSourcesAppendixTool_error sourcesMd u m st
  obtain ⟨h5, h6⟩ := finalizeMissionReportTool_error reportBody appendix u m st
  obtain ⟨h7, h8⟩ := verifyAndRepairTool_error u m st
  obtain ⟨h9, h10⟩ := publishFinalReportTool_fail reportBody appendix u m st
  exact ⟨createTenantBackend_typeError u m, h1, h2, h3, h4, h5, h6, h7, h8, h9, h10⟩

/-! ### C6 — per-channel citation numbering from an empty ledger -/

theorem addSectionRef_sources (L : Ledger) (sec cid : String) :
    (addSectionRef L sec cid).sources = L.sources := by
  unfold addSectionRef
  split <;> rfl

theorem addSectionRef_by_fingerprint (L : Ledger) (sec cid : String) :
    (addSectionRef L sec cid).by_fingerprint = L.by_fingerprint := by
  unfold addSectionRef
  split <;> rfl

theorem mergeEvidenceItem_fresh (L : Ledger) (w m : Nat) (e : EvidenceItem)
    (h : lookupAssoc L.by_fingerprint (fpOf e) = none) :
    mergeEvidenceItem (L, w, m) e = mergeFreshItem L w m e := by
  unfold mergeEvidenceItem
  dsimp only
  rw [h]

theorem mergeEvidenceItem_existing (L : Ledger) (w m : Nat) (e : EvidenceItem)
    (cid : String) (h : lookupAssoc L.by_fingerprint (fpOf e) = some cid) :
    mergeEvidenceItem (L, w, m) e = mergeExistingItem L w m e cid := by
  unfold mergeEvidenceItem
  dsimp only
  rw [h]

theorem map_congr_fun {α β : Type} (f g : α → β) (l : List α) (h : ∀ a ∈ l, f a = g a) :
    l.map f = l.map g := by
  induction l with
  | nil => rfl
  | cons x xs ih =>
      simp only [List.map_cons]
      rw [h x (List.mem_cons_self x xs), ih (fun a ha => h a (List.mem_cons_of_mem x ha))]

theorem normalizeSourceChannel_not_web (v : Option String)
    (h : ¬ normalizeSourceChannel v = SourceChannel.WEB) :
    normalizeSourceChannel v = SourceChannel.ALB_MCP := by
  cases hc : normalizeSourceChannel v with
  | WEB => exact absurd hc h
  | ALB_MCP => rfl

theorem foldl_merge_fresh (E : List EvidenceItem) :
    ∀ (L : Ledger) (w m : Nat),
    (∀ e ∈ E, lookupAssoc L.by_fingerprint (fpOf e) = none) →
    E.Pairwise (fun a b => fpOf a ≠ fpOf b) →
    ((E.foldl mergeEvidenceItem (L, w, m)).1).sources = L.sources ++ freshEntries w m E := by
  induction E with
  | nil =>
      intro L w m _ _
      simp [freshEntries]
  | cons e es ih =>
      intro L w m hfresh hpair
      have he := hfresh e (List.mem_cons_self e es)
      obtain ⟨hhead, htail⟩ := List.pairwise_cons.mp hpair
      rw [List.foldl_cons, mergeEvidenceItem_fresh L w m e he]
      by_cases hweb : normalizeSourceChannel e.channel = SourceChannel.WEB
      · have hside : ∀ e' ∈ es,
            lookupAssoc (L.by_fingerprint
                ++ [(fpOf e, newCitationId SourceChannel.WEB (w + 1))]) (fpOf e') = none := by
          intro e' he'
          rw [lookupAssoc_append, hfresh e' (List.mem_cons_of_mem e he')]
          simp [lookupAssoc, hhead e' he']
        unfold mergeFreshItem
        rw [if_pos hweb]
        rw [ih _ _ _ (by
          intro e' he'
          rw [addSectionRef_by_fingerprint]
          exact hside e' he') htail]
        rw [addSectionRef_sources]
        show (L.sources ++ [mkFreshEntry e (newCitationId SourceChannel.WEB (w + 1))])
            ++ freshEntries (w + 1) m es = L.sources ++ freshEntries w m (e :: es)
        rw [List.append_assoc, List.singleton_append]
        congr 1
        simp only [freshEntries]
        rw [if_pos hweb]
      · have hside : ∀ e' ∈ es,
            lookupAssoc (L.by_fingerprint
                ++ [(fpOf e, newCitationId SourceChannel.ALB_MCP (m + 1))]) (fpOf e') = none := by
          intro e' he'
          rw [lookupAssoc_append, hfresh e' (List.mem_cons_of_mem e he')]
          simp [lookupAssoc, hhead e' he']
        unfold mergeFreshItem
        rw [if_neg hweb]
        rw [ih _ _ _ (by
          intro e' he'
          rw [addSectionRef_by_fingerprint]
          exact hside e' he') htail]
        rw [addSectionRef_sources]
        show (L.sources ++ [mkFreshEntry e (newCitationId SourceChannel.ALB_MCP (m + 1))])
            ++ freshEntries w (m + 1) es = L.sources ++ freshEntries w m (e :: es)
        rw [List.append_assoc, List.singleton_append]
        congr 1
        simp only [freshEntries]
        rw [if_neg hweb]

theorem mkFreshEntry_channel_web (e : EvidenceItem) (cid : String)
    (h : normalizeSourceChannel e.channel = SourceChannel.WEB) :
    (mkFreshEntry e cid).channel = "web" := by
  simp [mkFreshEntry, h, channelValue]

theorem mkFreshEntry_channel_mcp (e : EvidenceItem) (cid : String)
    (h : ¬ normalizeSourceChannel e.channel = SourceChannel.WEB) :
    (mkFreshEntry e cid).channel = "alb_mcp" := by
  simp [mkFreshEntry, normalizeSourceChannel_not_web e.channel h, channelValue]

theorem freshEntries_web_ids (E : List EvidenceItem) :
    ∀ w m : Nat,
    ((freshEntries w m E).filter (fun s => decide (s.channel = "web"))).map
        (fun s => s.citation_id)
      = (List.range (countWeb E)).map (fun i => "WEB-" ++ toString (w + i + 1)) := by
  induction E with
  | nil =>
      intro w m
      simp [freshEntries, countWeb]
  | cons e es ih =>
      intro w m
      by_cases hweb : normalizeSourceChannel e.channel = SourceChannel.WEB
      · simp only [freshEntries]
        rw [if_pos hweb]
        rw [List.filter_cons_of_pos (by simp [mkFreshEntry_channel_web e _ hweb])]
        rw [List.map_cons]
        have hcw : countWeb (e :: es) = countWeb es + 1 := by
          simp [countWeb, List.filter_cons, hweb]
        rw [hcw, List.range_succ_eq_map, List.map_cons, List.map_map, ih (w + 1) m]
        have hhead2 : (mkFreshEntry e (newCitationId SourceChannel.WEB (w + 1))).citation_id
            = "WEB-" ++ toString (w + 0 + 1) := by
          show (if SourceChannel.WEB = SourceChannel.WEB then "WEB" else "MCP")
              ++ "-" ++ toString (w + 1) = "WEB-" ++ toString (w + 0 + 1)
          rw [if_pos rfl, Nat.add_zero]
          rw [show (("WEB" : String) ++ "-") = "WEB-" from by decide]
        have htail2 : (List.range (countWeb es)).map
              (fun i => "WEB-" ++ toString (w + 1 + i + 1))
            = (List.range (countWeb es)).map
              ((fun i => "WEB-" ++ toString (w + i + 1)) ∘ Nat.succ) := by
          apply map_congr_fun
          intro a _
          show "WEB-" ++ toString (w + 1 + a + 1) = "WEB-" ++ toString (w + Nat.succ a + 1)
          rw [show w + 1 + a + 1 = w + Nat.succ a + 1 from by omega]
        rw [hhead2, htail2]
      · simp only [freshEntries]
        rw [if_neg hweb]
        rw [List.filter_cons_of_neg (by simp [mkFreshEntry_channel_mcp e _ hweb])]
        have hcw : countWeb (e :: es) = countWeb es := by
          simp [countWeb, List.filter_cons, hweb]
        rw [hcw, ih w (m + 1)]

theorem freshEntries_mcp_ids (E : List EvidenceItem) :
    ∀ w m : Nat,
    ((freshEntries w m E).filter (fun s => decide (s.channel = "alb_mcp"))).map
        (fun s => s.citation_id)
      = (List.range (countMcp E)).map (fun i => "MCP-" ++ toString (m + i + 1)) := by
  induction E with
  | nil =>
      intro w m
      simp [freshEntries, countMcp]
  | cons e es ih =>
      intro w m
      by_cases hweb : normalizeSourceChannel e.channel = SourceChannel.WEB
      · simp only [freshEntries]
        rw [if_pos hweb]
        rw [List.filter_cons_of_neg (by simp [mkFreshEntry_channel_web e _ hweb])]
        have hcm : countMcp (e :: es) = countMcp es := by
          simp [countMcp, List.filter_cons, hweb]
        rw [hcm, ih (w + 1) m]
      · simp only [freshEntries]
        rw [if_neg hweb]
        rw [List.filter_cons_of_pos (by simp [mkFreshEntry_channel_mcp e _ hweb])]
        rw [List.map_cons]
        have hcm : countMcp (e :: es) = countMcp es + 1 := by
          simp [countMcp, List.filter_cons, normalizeSourceChannel_not_web e.channel hweb]
        rw [hcm, List.range_succ_eq_map, List.map_cons, List.map_map, ih w (m + 1)]
        have hhead2 : (mkFreshEntry e (newCitationId SourceChannel.ALB_MCP (m + 1))).citation_id
            = "MCP-" ++ toString (m + 0 + 1) := by
          show (if SourceChannel.ALB_MCP = SourceChannel.WEB then "WEB" else "MCP")
              ++ "-" ++ toString (m + 1) = "MCP-" ++ toString (m + 0 + 1)
          rw [if_neg (by decide), Nat.add_zero]
          rw [show (("MCP" : String) ++ "-") = "MCP-" from by decide]
        have htail2 : (List.range (countMcp es)).map
              (fun i => "MCP-" ++ toString (m + 1 + i + 1))
            = (List.range (countMcp es)).map
              ((fun i => "MCP-" ++ toString (m + i + 1)) ∘ Nat.succ) := by
          apply map_congr_fun
          intro a _
          show "MCP-" ++ toString (m + 1 + a + 1) = "MCP-" ++ toString (m + Nat.succ a + 1)
          rw [show m + 1 + a + 1 = m + Nat.succ a + 1 from by omega]
        rw [hhead2, htail2]

/-- C6: merging any evidence list with pairwise-distinct fingerprints into
an empty ledger yields web citation ids `WEB-1 .. WEB-n` and internal ids
`MCP-1 .. MCP-m` (n, m the per-channel counts), in order, strictly
increasing and gapless from 1, regardless of how the channels are
interleaved in the evidence list. -/
theorem claim6_citation_numbering (E : List EvidenceItem)
    (hdist : E.Pairwise (fun a b => fpOf a ≠ fpOf b)) :
    (((buildCitationLedger E emptyLedger).sources.filter
        (fun s => decide (s.channel = "web"))).map (fun s => s.citation_id)
      = (List.range (countWeb E)).map (fun i => "WEB-" ++ toString (i + 1)))
    ∧ (((buildCitationLedger E emptyLedger).sources.filter
        (fun s => decide (s.channel = "alb_mcp"))).map (fun s => s.citation_id)
      = (List.range (countMcp E)).map (fun i => "MCP-" ++ toString (i + 1))) := by
  have hfold := foldl_merge_fresh E emptyLedger 0 0 (fun e _ => rfl) hdist
  have hbuild : (buildCitationLedger E emptyLedger).sources = freshEntries 0 0 E := by
    unfold buildCitationLedger
    rw [show extractExistingMaxIndex emptyLedger SourceChannel.WEB = 0 from rfl,
        show extractExistingMaxIndex emptyLedger SourceChannel.ALB_MCP = 0 from rfl]
    rw [hfold]
    rfl
  constructor
  · rw [hbuild, freshEntries_web_ids E 0 0]
    apply map_congr_fun
    intro a _
    rw [show 0 + a + 1 = a + 1 from by omega]
  · rw [hbuild, freshEntries_mcp_ids E 0 0]
    apply map_congr_fun
    intro a _
    rw [show 0 + a + 1 = a + 1 from by omega]

/-- Witness for C6: two web items and one internal item, interleaved, give
`WEB-1, WEB-2` and `MCP-1`. -/
theorem claim6_citation_numbering_witness :
    fixtureEvidenceThree.Pairwise (fun a b => fpOf a ≠ fpOf b)
    ∧ ((buildCitationLedger fixtureEvidenceThree emptyLedger).sources.filter
        (fun s => decide (s.channel = "web"))).map (fun s => s.citation_id)
        = ["WEB-1", "WEB-2"]
    ∧ ((buildCitationLedger fixtureEvidenceThree emptyLedger).sources.filter
        (fun s => decide (s.channel = "alb_mcp"))).map (fun s => s.citation_id)
        = ["MCP-1"] := by
  have hd : fixtureEvidenceThree.Pairwise (fun a b => fpOf a ≠ fpOf b) := by decide
  have h := claim6_citation_numbering fixtureEvidenceThree hd
  refine ⟨hd, ?_, ?_⟩
  · rw [h.1]
    decide
  · rw [h.2]
    decide

/-! ### C3 — merge invariants over a prior ledger -/

theorem snippetExtends_refl (s : SourceEntry) : SnippetExtends s s :=
  ⟨rfl, rfl, rfl, rfl, rfl, [], by simp, List.nodup_nil, by simp⟩

theorem snippetExtends_trans {a b c : SourceEntry}
    (hab : SnippetExtends a b) (hbc : SnippetExtends b c) : SnippetExtends a c := by
  obtain ⟨h1, h2, h3, h4, h5, app1, happ1, hnd1, hfresh1⟩ := hab
  obtain ⟨g1, g2, g3, g4, g5, app2, happ2, hnd2, hfresh2⟩ := hbc
  refine ⟨g1.trans h1, g2.trans h2, g3.trans h3, g4.trans h4, g5.trans h5,
    app1 ++ app2, ?_, ?_, ?_⟩
  · rw [happ2, happ1, List.append_assoc]
  · rw [List.nodup_append]
    refine ⟨hnd1, hnd2, ?_⟩
    intro x hx1 hx2
    apply hfresh2 x hx2
    rw [happ1]
    exact List.mem_append_right _ hx1
  · intro x hx
    rcases List.mem_append.mp hx with hx1 | hx2
    · exact hfresh1 x hx1
    · intro hmem
      apply hfresh2 x hx2
      rw [happ1]
      exact List.mem_append_left _ hmem

theorem forall₂_map_self {α : Type} (R : α → α → Prop) (f : α → α) (l : List α)
    (h : ∀ x ∈ l, R x (f x)) : List.Forall₂ R l (l.map f) := by
  induction l with
  | nil => exact List.Forall₂.nil
  | cons x xs ih =>
      exact List.Forall₂.cons (h x (List.mem_cons_self x xs))
        (ih (fun a ha => h a (List.mem_cons_of_mem x ha)))

theorem forall₂_take {α β : Type} (R : α → β → Prop) (n : Nat) {xs : List α} {ys : List β}
    (h : List.Forall₂ R xs ys) : List.Forall₂ R (xs.take n) (ys.take n) := by
  induction h generalizing n with
  | nil => simp
  | cons ha hl ih =>
      cases n with
      | zero => simp
      | succ k =>
          simp only [List.take_succ_cons]
          exact List.Forall₂.cons ha (ih k)

theorem forall₂_snippetExtends_trans {a b c : List SourceEntry}
    (hab : List.Forall₂ SnippetExtends a b) (hbc : List.Forall₂ SnippetExtends b c) :
    List.Forall₂ SnippetExtends a c := by
  induction hab generalizing c with
  | nil =>
      cases hbc
      exact List.Forall₂.nil
  | cons ha hl ih =>
      cases hbc with
      | cons hb hl2 => exact List.Forall₂.cons (snippetExtends_trans ha hb) (ih hl2)

theorem ledgerExtends_refl (L : Ledger) : LedgerExtends L L := by
  refine ⟨?_, ⟨[], by simp⟩, fun sec => ⟨[], by simp⟩⟩
  rw [List.take_length]
  exact (List.forall₂_same).mpr (fun x _ => snippetExtends_refl x)

theorem ledgerExtends_trans {a b c : Ledger}
    (hab : LedgerExtends a b) (hbc : LedgerExtends b c) : LedgerExtends a c := by
  obtain ⟨f1, ⟨e1, he1⟩, hs1⟩ := hab
  obtain ⟨f2, ⟨e2, he2⟩, hs2⟩ := hbc
  refine ⟨?_, ⟨e1 ++ e2, by rw [he2, he1, List.append_assoc]⟩, fun sec => ?_⟩
  · have hlen1 := f1.length_eq
    rw [List.length_take] at hlen1
    have hle1 : a.sources.length ≤ b.sources.length := by
      have := Nat.min_le_right a.sources.length b.sources.length
      omega
    have h2 := forall₂_take SnippetExtends a.sources.length f2
    rw [List.take_take, Nat.min_eq_left hle1] at h2
    exact forall₂_snippetExtends_trans f1 h2
  · obtain ⟨x1, hx1⟩ := hs1 sec
    obtain ⟨x2, hx2⟩ := hs2 sec
    exact ⟨x1 ++ x2, by rw [hx2, hx1, List.append_assoc]⟩

theorem updateSnippets_extends (snippet cid : String) (s : SourceEntry) :
    SnippetExtends s (updateSnippets snippet cid s) := by
  unfold updateSnippets
  by_cases h : s.citation_id = cid ∧ snippet ≠ ""
  · rw [if_pos h]
    by_cases hmem : snippet ∈ s.snippets
    · rw [if_pos hmem]
      exact snippetExtends_refl s
    · rw [if_neg hmem]
      exact ⟨rfl, rfl, rfl, rfl, rfl, [snippet], rfl, List.nodup_singleton snippet,
        by simpa using hmem⟩
  · rw [if_neg h]
    exact snippetExtends_refl s

theorem sectionRefs_addSectionRef (L : Ledger) (sec cid sec2 : String) :
    ∃ ext, sectionRefs (addSectionRef L sec cid) sec2 = sectionRefs L sec2 ++ ext := by
  unfold addSectionRef
  by_cases hmem : cid ∈ (lookupAssoc L.section_map sec).getD []
  · rw [if_pos hmem]
    exact ⟨[], by simp⟩
  · rw [if_neg hmem]
    by_cases hsec : sec2 = sec
    · subst hsec
      refine ⟨[cid], ?_⟩
      unfold sectionRefs
      show (lookupAssoc (updateAssoc L.section_map sec2
          (((lookupAssoc L.section_map sec2).getD []) ++ [cid])) sec2).getD [] = _
      rw [lookupAssoc_updateAssoc_self]
      rfl
    · refine ⟨[], ?_⟩
      unfold sectionRefs
      show (lookupAssoc (updateAssoc L.section_map sec
          (((lookupAssoc L.section_map sec).getD []) ++ [cid])) sec2).getD [] = _
      rw [lookupAssoc_updateAssoc_other _ _ _ _ hsec]
      simp

theorem mergeEvidenceItem_extends (L : Ledger) (w m : Nat) (e : EvidenceItem) :
    LedgerExtends L ((mergeEvidenceItem (L, w, m) e).1) := by
  unfold mergeEvidenceItem
  dsimp only
  cases hl : lookupAssoc L.by_fingerprint (fpOf e) with
  | none =>
      unfold mergeFreshItem
      by_cases hweb : normalizeSourceChannel e.channel = SourceChannel.WEB
      · rw [if_pos hweb]
        dsimp only
        refine ⟨?_, ?_, fun sec => sectionRefs_addSectionRef _ _ _ sec⟩
        · rw [addSectionRef_sources]
          show List.Forall₂ SnippetExtends L.sources
            ((L.sources ++ [mkFreshEntry e (newCitationId SourceChannel.WEB (w + 1))]).take
              L.sources.length)
          rw [List.take_left]
          exact (List.forall₂_same).mpr (fun x _ => snippetExtends_refl x)
        · rw [addSectionRef_by_fingerprint]
          exact ⟨[(fpOf e, newCitationId SourceChannel.WEB (w + 1))], rfl⟩
      · rw [if_neg hweb]
        dsimp only
        refine ⟨?_, ?_, fun sec => sectionRefs_addSectionRef _ _ _ sec⟩
        · rw [addSectionRef_sources]
          show List.Forall₂ SnippetExtends L.sources
            ((L.sources ++ [mkFreshEntry e (newCitationId SourceChannel.ALB_MCP (m + 1))]).take
              L.sources.length)
          rw [List.take_left]
          exact (List.forall₂_same).mpr (fun x _ => snippetExtends_refl x)
        · rw [addSectionRef_by_fingerprint]
          exact ⟨[(fpOf e, newCitationId SourceChannel.ALB_MCP (m + 1))], rfl⟩
  | some cid =>
      unfold mergeExistingItem
      dsimp only
      refine ⟨?_, ?_, fun sec => sectionRefs_addSectionRef _ _ _ sec⟩
      · rw [addSectionRef_sources]
        show List.Forall₂ SnippetExtends L.sources
          ((L.sources.map (updateSnippets e.snippet cid)).take L.sources.length)
        have hlen : L.sources.length = (L.sources.map (updateSnippets e.snippet cid)).length :=
          (List.length_map _ _).symm
        rw [hlen, List.take_length]
        exact forall₂_map_self _ _ _ (fun x _ => updateSnippets_extends e.snippet cid x)
      · rw [addSectionRef_by_fingerprint]
        exact ⟨[], by simp⟩

theorem foldl_merge_extends (E : List EvidenceItem) :
    ∀ (L : Ledger) (w m : Nat),
    LedgerExtends L ((E.foldl mergeEvidenceItem (L, w, m)).1) := by
  induction E with
  | nil =>
      intro L w m
      exact ledgerExtends_refl L
  | cons e es ih =>
      intro L w m
      rw [List.foldl_cons]
      have hext1 := mergeEvidenceItem_extends L w m e
      rcases hmerge : mergeEvidenceItem (L, w, m) e with ⟨L2, w2, m2⟩
      rw [hmerge] at hext1
      exact ledgerExtends_trans hext1 (ih L2 w2 m2)

theorem keysOf_append {α : Type} (l1 l2 : List (String × α)) :
    keysOf (l1 ++ l2) = keysOf l1 ++ keysOf l2 := by
  simp [keysOf]

theorem foldl_merge_length (E : List EvidenceItem) :
    ∀ (L : Ledger) (w m : Nat),
    ((E.foldl mergeEvidenceItem (L, w, m)).1).sources.length
      = L.sources.length + countNewFps (keysOf L.by_fingerprint) E := by
  induction E with
  | nil =>
      intro L w m
      simp [countNewFps]
  | cons e es ih =>
      intro L w m
      rw [List.foldl_cons]
      cases hl : lookupAssoc L.by_fingerprint (fpOf e) with
      | none =>
          have hnotin : fpOf e ∉ keysOf L.by_fingerprint :=
            (lookupAssoc_eq_none_iff _ _).mp hl
          rw [mergeEvidenceItem_fresh L w m e hl]
          unfold mergeFreshItem
          by_cases hweb : normalizeSourceChannel e.channel = SourceChannel.WEB
          · rw [if_pos hweb]
            rw [ih _ _ _]
            rw [addSectionRef_sources, addSectionRef_by_fingerprint]
            show (L.sources ++ [mkFreshEntry e (newCitationId SourceChannel.WEB (w + 1))]).length
                + countNewFps (keysOf (L.by_fingerprint
                    ++ [(fpOf e, newCitationId SourceChannel.WEB (w + 1))])) es
              = L.sources.length + countNewFps (keysOf L.by_fingerprint) (e :: es)
            rw [List.length_append, keysOf_append]
            simp only [countNewFps]
            rw [if_neg hnotin]
            show L.sources.length + 1 + countNewFps (keysOf L.by_fingerprint ++ [fpOf e]) es
              = L.sources.length
                + (countNewFps (keysOf L.by_fingerprint ++ [fpOf e]) es + 1)
            omega
          · rw [if_neg hweb]
            rw [ih _ _ _]
            rw [addSectionRef_sources, addSectionRef_by_fingerprint]
            show (L.sources ++ [mkFreshEntry e (newCitationId SourceChannel.ALB_MCP (m + 1))]).length
                + countNewFps (keysOf (L.by_fingerprint
                    ++ [(fpOf e, newCitationId SourceChannel.ALB_MCP (m + 1))])) es
              = L.sources.length + countNewFps (keysOf L.by_fingerprint) (e :: es)
            rw [List.length_append, keysOf_append]
            simp only [countNewFps]
            rw [if_neg hnotin]
            show L.sources.length + 1 + countNewFps (keysOf L.by_fingerprint ++ [fpOf e]) es
              = L.sources.length
                + (countNewFps (keysOf L.by_fingerprint ++ [fpOf e]) es + 1)
            omega
      | some cid =>
          have hin : fpOf e ∈ keysOf L.by_fingerprint := by
            by_contra hno
            rw [← lookupAssoc_eq_none_iff] at hno
            rw [hl] at hno
            simp at hno
          rw [mergeEvidenceItem_existing L w m e cid hl]
          unfold mergeExistingItem
          rw [ih _ _ _]
          rw [addSectionRef_sources, addSectionRef_by_fingerprint]
          show (L.sources.map (updateSnippets e.snippet cid)).length
              + countNewFps (keysOf L.by_fingerprint) es
            = L.sources.length + countNewFps (keysOf L.by_fingerprint) (e :: es)
          rw [List.length_map]
          simp only [countNewFps]
          rw [if_pos hin]

theorem countNewFps_eq_card (E : List EvidenceItem) :
    ∀ D : List String,
    countNewFps D E = ((E.map fpOf).toFinset.filter (fun f => f ∉ D)).card := by
  induction E with
  | nil =>
      intro D
      simp [countNewFps]
  | cons e es ih =>
      intro D
      rw [List.map_cons, List.toFinset_cons]
      by_cases hD : fpOf e ∈ D
      · simp only [countNewFps]
        rw [if_pos hD, Finset.filter_insert, if_neg (by simp [hD])]
        exact ih D
      · simp only [countNewFps]
        rw [if_neg hD, Finset.filter_insert, if_pos (by simp [hD]), ih (D ++ [fpOf e])]
        have hset : (es.map fpOf).toFinset.filter (fun f => f ∉ D ++ [fpOf e])
            = ((es.map fpOf).toFinset.filter (fun f => f ∉ D)).erase (fpOf e) := by
          ext f
          simp only [Finset.mem_filter, Finset.mem_erase, List.mem_append,
            List.mem_singleton]
          constructor
          · intro hf
            have := hf.2
            push_neg at this
            exact ⟨this.2, hf.1, this.1⟩
          · intro hf
            refine ⟨hf.2.1, ?_⟩
            push_neg
            exact ⟨hf.2.2, hf.1⟩
        rw [hset]
        by_cases hmem : fpOf e ∈ (es.map fpOf).toFinset.filter (fun f => f ∉ D)
        · rw [Finset.card_erase_of_mem hmem, Finset.card_insert_of_mem hmem]
          have hpos : 0 < ((es.map fpOf).toFinset.filter (fun f => f ∉ D)).card :=
            Finset.card_pos.mpr ⟨fpOf e, hmem⟩
          omega
        · rw [Finset.erase_eq_of_not_mem hmem, Finset.card_insert_of_not_mem hmem]

/-- C3: merging any evidence list into any prior ledger (a) leaves every
prior entry in place with its citation_id, channel, title, url and
raw_citation unchanged and only its snippet list grown by fresh,
pairwise-distinct snippets; (b) appends exactly one new source per distinct
fingerprint not already registered in the prior ledger, so that two
equal-fingerprint evidence items — within one call or across calls via the
prior ledger — collapse into a single entry; and (c,d) only ever extends
the fingerprint index and the per-section reference lists. -/
theorem claim3_ledger_merge_invariants (L : Ledger) (E : List EvidenceItem) :
    List.Forall₂ SnippetExtends L.sources
        ((buildCitationLedger E L).sources.take L.sources.length)
    ∧ (buildCitationLedger E L).sources.length
        = L.sources.length
          + ((E.map fpOf).toFinset.filter
              (fun f => lookupAssoc L.by_fingerprint f = none)).card
    ∧ (∃ ext, (buildCitationLedger E L).by_fingerprint = L.by_fingerprint ++ ext)
    ∧ (∀ sec, ∃ ext, sectionRefs (buildCitationLedger E L) sec
        = sectionRefs L sec ++ ext) := by
  obtain ⟨hforall, hfp, hsec⟩ := foldl_merge_extends E L
    (extractExistingMaxIndex L SourceChannel.WEB)
    (extractExistingMaxIndex L SourceChannel.ALB_MCP)
  have hlen := foldl_merge_length E L
    (extractExistingMaxIndex L SourceChannel.WEB)
    (extractExistingMaxIndex L SourceChannel.ALB_MCP)
  have hcard := countNewFps_eq_card E (keysOf L.by_fingerprint)
  have hfilter : (E.map fpOf).toFinset.filter (fun f => f ∉ keysOf L.by_fingerprint)
      = (E.map fpOf).toFinset.filter (fun f => lookupAssoc L.by_fingerprint f = none) := by
    apply Finset.filter_congr
    intro f _
    exact (lookupAssoc_eq_none_iff L.by_fingerprint f).symm
  refine ⟨hforall, ?_, hfp, hsec⟩
  rw [show buildCitationLedger E L
      = (E.foldl mergeEvidenceItem
          (L, extractExistingMaxIndex L SourceChannel.WEB,
           extractExistingMaxIndex L SourceChannel.ALB_MCP)).1 from rfl]
  rw [hlen, hcard, hfilter]

end DeepResearch
